import Mathlib

/-!
# PN532 over SPI: host-side framing (PN532SPI.cpp)

A shallow embedding of `PN532SPI::writeFrame`, `isReady`, `readAckFrame`,
`writeCommand` and `readResponse`.

* Machine integers are natural numbers reduced `% 256` (`uint8_t`) or
  `% 65536` (`uint16_t`) at the places where the C code stores them.
* The SPI bus is explicit state: `rx k` is the byte the device clocks out on the
  `k`-th `read()`, `reads` counts the reads done so far, and `trace` records, in
  order, every select-line change, byte written, byte read and `delay`.
* Byte arrays passed by pointer (`buf`) are functions from index to byte.
* The two polling loops need not terminate, so they take a fuel argument that
  bounds the number of `isReady()` calls; `none` means the fuel ran out.
-/

namespace PN532

/-! ## Constants -/

/-- Request byte of a status read (`#define STATUS_READ 2`). -/
def STATUS_READ : Nat := 2
/-- Request byte of a data write (`#define DATA_WRITE 1`). -/
def DATA_WRITE : Nat := 1
/-- Request byte of a data read (`#define DATA_READ 3`). -/
def DATA_READ : Nat := 3

/-- Modelled from the spec: the interface header that defines the wire constants is
not among the sources; section 6 of the spec gives preamble 0x00. -/
def PN532_PREAMBLE : Nat := 0x00
/-- Modelled from the spec: start code 1 is 0x00 (interface header not among the sources). -/
def PN532_STARTCODE1 : Nat := 0x00
/-- Modelled from the spec: start code 2 is 0xFF (interface header not among the sources). -/
def PN532_STARTCODE2 : Nat := 0xFF
/-- Modelled from the spec: postamble is 0x00 (interface header not among the sources). -/
def PN532_POSTAMBLE : Nat := 0x00
/-- Modelled from the spec: host-to-device direction byte 0xD4 (interface header not
among the sources). -/
def PN532_HOSTTOPN532 : Nat := 0xD4
/-- Modelled from the spec: device-to-host direction byte 0xD5 (interface header not
among the sources). -/
def PN532_PN532TOHOST : Nat := 0xD5
/-- Modelled from the spec: the default retry count of the acknowledgment wait is 10
(interface header not among the sources). -/
def PN532_ACK_WAIT_TIME : Nat := 10

/-- Modelled from the spec: the InvalidAck failure kind; the interface header that
gives it a number is not among the sources, the value is the one of the PN532 library. -/
def PN532_INVALID_ACK : Int := -1
/-- Modelled from the spec: the Timeout failure kind (interface header not among the
sources); `writeCommand` returns the literal `-2` for it. -/
def PN532_TIMEOUT : Int := -2
/-- Modelled from the spec: the InvalidFrame failure kind (interface header not among
the sources). -/
def PN532_INVALID_FRAME : Int := -3
/-- Modelled from the spec: the NoSpace failure kind (interface header not among the
sources). -/
def PN532_NO_SPACE : Int := -4

/-! ## Bus state -/

/-- One observable action of the driver. -/
inductive Event where
  /-- The call `digitalWrite(_ss, LOW)`. -/
  | select : Event
  /-- The call `digitalWrite(_ss, HIGH)`. -/
  | release : Event
  /-- The call `write(b)`. -/
  | write (b : Nat) : Event
  /-- A call of `read()` that returned `b`. -/
  | read (b : Nat) : Event
  /-- The call `delay(ms)`. -/
  | delay (ms : Nat) : Event
  deriving DecidableEq, Repr

/-- The object state of `PN532SPI` together with the bus it drives. -/
structure PN532SPI where
  /-- The member `command` (a `uint8_t`): first byte of the last command sent. -/
  command : Nat
  /-- The device: `rx k` is the byte returned by the `k`-th `read()` (counted from 0). -/
  rx : Nat → Nat
  /-- Number of `read()` calls made so far. -/
  reads : Nat
  /-- Everything done on the bus so far, oldest first. -/
  trace : List Event

/-- Modelled from the spec: `PN532SPI(spi, ss)` sets `command = 0`; the device `rx` is
the injected bus capability. -/
def PN532SPI.new (rx : Nat → Nat) : PN532SPI :=
  { command := 0, rx := rx, reads := 0, trace := [] }

/-- The call `digitalWrite(_ss, LOW)`: assert select. -/
def PN532SPI.selectLow (s : PN532SPI) : PN532SPI :=
  { s with trace := s.trace ++ [Event.select] }

/-- The call `digitalWrite(_ss, HIGH)`: release select. -/
def PN532SPI.selectHigh (s : PN532SPI) : PN532SPI :=
  { s with trace := s.trace ++ [Event.release] }

/-- The call `delay(ms)`. -/
def PN532SPI.delay (s : PN532SPI) (ms : Nat) : PN532SPI :=
  { s with trace := s.trace ++ [Event.delay ms] }

/-- Modelled from the spec: `write(uint8_t)` is declared in the class header, which is
not among the sources; it is the bus capability `writeByte(b)`. -/
def PN532SPI.write (s : PN532SPI) (b : Nat) : PN532SPI :=
  { s with trace := s.trace ++ [Event.write (b % 256)] }

/-- Modelled from the spec: `read()` is declared in the class header, which is not among
the sources; it is the bus capability `readByte()`, returning the next device byte. -/
def PN532SPI.read (s : PN532SPI) : Nat × PN532SPI :=
  (s.rx s.reads % 256,
   { s with reads := s.reads + 1, trace := s.trace ++ [Event.read (s.rx s.reads % 256)] })

/-! ## isReady -/

/-- Embedding of `PN532SPI::isReady`. -/
def PN532SPI.isReady (s : PN532SPI) : Bool × PN532SPI :=
  let s1 := s.selectLow
  let s2 := s1.write STATUS_READ
  let r := s2.read
  let status := r.1 &&& 1
  let s3 := r.2.selectHigh
  (status != 0, s3)

/-! ## writeFrame -/

/-- Two's complement of a byte as the C code computes it: `~x + 1` stored in a `uint8_t`. -/
def negByte (x : Nat) : Nat := ((255 - x % 256) + 1) % 256

/-- The payload loop of `writeFrame`: `for (i = 0; i < len; i++) { write(buf[i]); sum += buf[i]; }`.
The first argument is the number of iterations left, `i` the loop index. -/
def writeFrameLoop (buf : Nat → Nat) : Nat → Nat → Nat → PN532SPI → Nat × PN532SPI
  | 0, _, sum, s => (sum, s)
  | n + 1, i, sum, s =>
    writeFrameLoop buf n (i + 1) ((sum + buf i % 256) % 256) (s.write (buf i))

/-- Embedding of `PN532SPI::writeFrame(buf, len)`; `len` is a `uint8_t`. -/
def PN532SPI.writeFrame (s : PN532SPI) (buf : Nat → Nat) (len : Nat) : PN532SPI :=
  let s := s.selectLow
  let s := s.delay 2
  let s := s.write DATA_WRITE
  let s := s.write PN532_PREAMBLE
  let s := s.write PN532_STARTCODE1
  let s := s.write PN532_STARTCODE2
  let length := (len + 1) % 256
  let s := s.write length
  let s := s.write (negByte length)
  let s := s.write PN532_HOSTTOPN532
  let sum := PN532_HOSTTOPN532
  let r := writeFrameLoop buf (len % 256) 0 sum s
  let checksum := negByte r.1
  let s := r.2.write checksum
  let s := s.write PN532_POSTAMBLE
  s.selectHigh

/-! ## readAckFrame -/

/-- The libc function `memcmp` on two byte sequences of equal length: the difference of
the first pair of bytes that differ, `0` when there is none. -/
def memcmp : List Nat → List Nat → Int
  | a :: as, b :: bs => if a = b then memcmp as bs else (a : Int) - (b : Int)
  | _, _ => 0

/-- Conversion of an `int` to `int8_t`. -/
def toInt8 (x : Int) : Int := (x + 128) % 256 - 128

/-- The constant `PN532_ACK` of `readAckFrame`. -/
def PN532_ACK : List Nat := [0, 0, 0xFF, 0, 0xFF, 0]

/-- The loop `for (i = 0; i < n; i++) ackBuf[i] = read();`, returning the bytes read. -/
def readBytes : Nat → PN532SPI → List Nat × PN532SPI
  | 0, s => ([], s)
  | n + 1, s =>
    let r := s.read
    let rest := readBytes n r.2
    (r.1 :: rest.1, rest.2)

/-- Embedding of `PN532SPI::readAckFrame`. -/
def PN532SPI.readAckFrame (s : PN532SPI) : Int × PN532SPI :=
  let s := s.selectLow
  let s := s.delay 1
  let s := s.write DATA_READ
  let r := readBytes PN532_ACK.length s
  let s := r.2.selectHigh
  (toInt8 (memcmp r.1 PN532_ACK), s)

/-! ## writeCommand -/

/-- The acknowledgment wait of `writeCommand`:
`while (!isReady()) { delay(1); timeout--; if (0 == timeout) return -2; }`.
The result is `some (true, s)` when the loop is left normally, `some (false, s)` when the
function returns `-2` from inside the loop, `none` when the fuel is used up. -/
def ackWaitLoop : Nat → Nat → PN532SPI → Option (Bool × PN532SPI)
  | 0, _, _ => none
  | fuel + 1, timeout, s =>
    let r := s.isReady
    if r.1 then some (true, r.2)
    else
      let s1 := r.2.delay 1
      let timeout1 := (timeout + 255) % 256
      if timeout1 = 0 then some (false, s1)
      else ackWaitLoop fuel timeout1 s1

/-- Embedding of `PN532SPI::writeCommand(buf, len)`. The retry count `ackWait` stands for
the constant `PN532_ACK_WAIT_TIME`, stored in a `uint8_t`. -/
def PN532SPI.writeCommand (fuel : Nat) (ackWait : Nat) (s : PN532SPI) (buf : Nat → Nat)
    (len : Nat) : Option (Int × PN532SPI) :=
  let s := { s with command := buf 0 % 256 }
  let s := s.writeFrame buf len
  match ackWaitLoop fuel (ackWait % 256) s with
  | none => none
  | some (false, s) => some (-2, s)
  | some (true, s) =>
    let r := s.readAckFrame
    if r.1 ≠ 0 then some (PN532_INVALID_ACK, r.2)
    else some (0, r.2)

/-! ## readResponse -/

/-- The readiness wait of `readResponse`:
`while (!isReady()) { delay(1); time++; if (timeout > 0 && time > timeout) return PN532_TIMEOUT; }`
with `time` a `uint16_t`. The result is `some (true, s)` when the loop is left normally,
`some (false, s)` when the function returns `PN532_TIMEOUT`, `none` when the fuel is used up. -/
def readyWaitLoop : Nat → Nat → Nat → PN532SPI → Option (Bool × PN532SPI)
  | 0, _, _, _ => none
  | fuel + 1, timeout, time, s =>
    let r := s.isReady
    if r.1 then some (true, r.2)
    else
      let s1 := r.2.delay 1
      let time1 := (time + 1) % 65536
      if timeout > 0 ∧ time1 > timeout then some (false, s1)
      else readyWaitLoop fuel timeout time1 s1

/-- The loop `for (i = 0; i < length; i++) { DMSG_HEX(read()); }` of the NoSpace path.
Modelled from the spec: the header with the diagnostic macros is not among the sources.
With diagnostics enabled `DMSG_HEX(x)` evaluates `x` once and prints it; with diagnostics
disabled it expands to nothing, so its argument `read()` is not evaluated. -/
def dumpMessage (debug : Bool) (length : Nat) (s : PN532SPI) : PN532SPI :=
  if debug then (readBytes length s).2 else s

/-- The payload loop of `readResponse`:
`for (i = 0; i < length; i++) { buf[i] = read(); sum += buf[i]; }`.
The first argument is the number of iterations left, `i` the loop index. -/
def readPayloadLoop : Nat → Nat → Nat → (Nat → Nat) → PN532SPI → Nat × (Nat → Nat) × PN532SPI
  | 0, _, sum, buf, s => (sum, buf, s)
  | n + 1, i, sum, buf, s =>
    let r := s.read
    let buf1 := fun j => if j = i then r.1 else buf j
    readPayloadLoop n (i + 1) ((sum + buf1 i) % 256) buf1 r.2

/-- The block `do { ... } while (0)` of `readResponse`; each early `break` is an early
result here. -/
def readResponseBody (debug : Bool) (buf : Nat → Nat) (len : Nat) (s : PN532SPI) :
    Int × (Nat → Nat) × PN532SPI :=
  let s := s.write DATA_READ
  let r0 := s.read
  if r0.1 ≠ 0x00 then (PN532_INVALID_FRAME, buf, r0.2) else
  let r1 := r0.2.read
  if r1.1 ≠ 0x00 then (PN532_INVALID_FRAME, buf, r1.2) else
  let r2 := r1.2.read
  if r2.1 ≠ 0xFF then (PN532_INVALID_FRAME, buf, r2.2) else
  let rl := r2.2.read
  let rc := rl.2.read
  if (rl.1 + rc.1) % 256 ≠ 0 then (PN532_INVALID_FRAME, buf, rc.2) else
  let cmd := (rc.2.command + 1) % 256
  let rt := rc.2.read
  if rt.1 ≠ PN532_PN532TOHOST then (PN532_INVALID_FRAME, buf, rt.2) else
  let re := rt.2.read
  if re.1 ≠ cmd then (PN532_INVALID_FRAME, buf, re.2) else
  let length := (rl.1 + 256 - 2) % 256
  if length > len then
    let s := dumpMessage debug length re.2
    let s := s.read.2
    let s := s.read.2
    (PN532_NO_SPACE, buf, s)
  else
  let sum := (PN532_PN532TOHOST + cmd) % 256
  let p := readPayloadLoop length 0 sum buf re.2
  let rk := p.2.2.read
  if (p.1 + rk.1) % 256 ≠ 0 then (PN532_INVALID_FRAME, p.2.1, rk.2) else
  let s := rk.2.read.2
  ((length : Int), p.2.1, s)

/-- Embedding of `PN532SPI::readResponse(buf, len, timeout)`; `len` is a `uint8_t` and
`timeout` a `uint16_t`, so a caller passes `len < 256` and `timeout < 65536`. The result is
the returned `int16_t`, the caller's buffer and the state afterwards. -/
def PN532SPI.readResponse (fuel : Nat) (debug : Bool) (s : PN532SPI) (buf : Nat → Nat)
    (len timeout : Nat) : Option (Int × (Nat → Nat) × PN532SPI) :=
  match readyWaitLoop fuel timeout 0 s with
  | none => none
  | some (false, s) => some (PN532_TIMEOUT, buf, s)
  | some (true, s) =>
    let s := s.selectLow
    let s := s.delay 1
    let r := readResponseBody debug buf len s
    some (r.1, r.2.1, r.2.2.selectHigh)


/-! ## Vocabulary of the statements -/

/-- The bytes `buf[i], buf[i+1], ..., buf[i+n-1]` of a byte array (or of the device stream). -/
def slice (buf : Nat → Nat) : Nat → Nat → List Nat
  | _, 0 => []
  | i, n + 1 => buf i % 256 :: slice buf (i + 1) n

/-- The bytes passed to `write` in a trace, in order. -/
def written : List Event → List Nat
  | [] => []
  | Event.write b :: es => b :: written es
  | _ :: es => written es

/-- A byte array holding the given bytes (and `0` beyond them). -/
def ofList (l : List Nat) : Nat → Nat := fun i => l.getD i 0

/-- The bytes `writeFrame(buf, len)` writes to the bus, in order. -/
def PN532SPI.envelope (s : PN532SPI) (buf : Nat → Nat) (len : Nat) : List Nat :=
  written ((s.writeFrame buf len).trace.drop s.trace.length)

/-- The events of `n` status polls that each found the device not ready and were each followed
by `delay(1)`, the first poll reading device byte number `p`. -/
def notReadyPolls (rx : Nat → Nat) : Nat → Nat → List Event
  | _, 0 => []
  | p, n + 1 =>
    [Event.select, Event.write 2, Event.read (rx p % 256), Event.release, Event.delay 1] ++
      notReadyPolls rx (p + 1) n

/-- The state of the select line after a sequence of events: `true` when the last select-line
event asserted it, `false` when the last one released it (or there was none and the line
was `held` released before). -/
def selectAsserted (held : Bool) (es : List Event) : Bool :=
  es.foldl (fun st e =>
    match e with
    | Event.select => true
    | Event.release => false
    | _ => st) held

/-! ## Example inputs -/

/-- A driver whose pending opcode is `c`, on a device that will deliver the bytes `l`
(and `0` after them). -/
def deviceWith (c : Nat) (l : List Nat) : PN532SPI :=
  { command := c, rx := ofList l, reads := 0, trace := [] }

/-! ## Basic facts -/

theorem slice_length (buf : Nat → Nat) (i n : Nat) : (slice buf i n).length = n := by
  induction n generalizing i with
  | zero => rfl
  | succ n ih => simp [slice, ih]

theorem slice_append (buf : Nat → Nat) (i m n : Nat) :
    slice buf i (m + n) = slice buf i m ++ slice buf (i + m) n := by
  induction m generalizing i with
  | zero => simp [slice]
  | succ m ih =>
    have h : m + 1 + n = (m + n) + 1 := by omega
    rw [h]
    simp only [slice, List.cons_append, ih]
    have h2 : i + 1 + m = i + (m + 1) := by omega
    rw [h2]

theorem slice_lt (buf : Nat → Nat) (i n : Nat) : ∀ b ∈ slice buf i n, b < 256 := by
  induction n generalizing i with
  | zero => simp [slice]
  | succ n ih =>
    intro b hb
    simp only [slice, List.mem_cons] at hb
    rcases hb with hb | hb
    · omega
    · exact ih _ _ hb

theorem written_append (a b : List Event) : written (a ++ b) = written a ++ written b := by
  induction a with
  | nil => rfl
  | cons e es ih => cases e <;> simp [written, ih]

theorem written_map_write (l : List Nat) : written (l.map Event.write) = l := by
  induction l with
  | nil => rfl
  | cons b bs ih => simp [written, ih]

theorem isReady_eq (s : PN532SPI) :
    s.isReady = (decide (s.rx s.reads % 2 = 1),
      { s with reads := s.reads + 1,
               trace := s.trace ++ [Event.select, Event.write 2, Event.read (s.rx s.reads % 256),
                 Event.release] }) := by
  have h : (s.rx s.reads % 256 &&& 1 != 0) = decide (s.rx s.reads % 2 = 1) := by
    rw [Nat.and_one_is_mod]
    have h2 : s.rx s.reads % 256 % 2 = s.rx s.reads % 2 := by omega
    rw [h2]
    rcases Nat.mod_two_eq_zero_or_one (s.rx s.reads) with h3 | h3 <;> simp [h3]
  show ((s.rx s.reads % 256 &&& 1 != 0), _) = _
  rw [h]
  simp [PN532SPI.selectLow, PN532SPI.selectHigh, PN532SPI.write, PN532SPI.read, STATUS_READ]

theorem writeFrameLoop_eq (buf : Nat → Nat) (n i sum : Nat) (s : PN532SPI) (hs : sum < 256) :
    writeFrameLoop buf n i sum s =
      ((sum + (slice buf i n).sum) % 256,
       { s with trace := s.trace ++ (slice buf i n).map Event.write }) := by
  induction n generalizing i sum s with
  | zero => simp [writeFrameLoop, slice, Nat.mod_eq_of_lt hs]
  | succ n ih =>
    rw [writeFrameLoop, ih _ _ _ (Nat.mod_lt _ (by decide))]
    simp only [slice, List.sum_cons, List.map_cons, PN532SPI.write, List.append_assoc,
      List.singleton_append, Prod.mk.injEq, and_true]
    omega

theorem readBytes_eq (n : Nat) (s : PN532SPI) :
    readBytes n s =
      (slice s.rx s.reads n,
       { s with reads := s.reads + n,
                trace := s.trace ++ (slice s.rx s.reads n).map Event.read }) := by
  induction n generalizing s with
  | zero => simp [readBytes, slice]
  | succ n ih =>
    rw [readBytes, ih]
    simp [slice, PN532SPI.read, Nat.add_assoc, Nat.add_comm 1 n]


theorem negByte_eq (x : Nat) : negByte x = (256 - x % 256) % 256 := by
  unfold negByte
  omega

theorem writeFrame_eq (s : PN532SPI) (buf : Nat → Nat) (len : Nat) (h : len ≤ 255) :
    s.writeFrame buf len =
      { s with trace := s.trace ++ ([Event.select, Event.delay 2] ++
          (([1, 0, 0, 0xFF, (len + 1) % 256, negByte ((len + 1) % 256), 0xD4] ++ slice buf 0 len ++
            [negByte ((0xD4 + (slice buf 0 len).sum) % 256), 0]).map Event.write ++
          [Event.release])) } := by
  unfold PN532SPI.writeFrame
  simp only [writeFrameLoop_eq _ _ _ _ _ (show PN532_HOSTTOPN532 < 256 by decide)]
  have hl : len % 256 = len := by omega
  simp [PN532SPI.selectLow, PN532SPI.selectHigh, PN532SPI.write, PN532SPI.delay, DATA_WRITE,
    PN532_PREAMBLE, PN532_STARTCODE1, PN532_STARTCODE2, PN532_HOSTTOPN532, PN532_POSTAMBLE, hl,
    negByte_eq]

/-- C1. For a payload of `len <= 254` bytes, `writeFrame` asserts select (and waits 2 ms),
writes exactly the bytes `01 00 00 FF len+1 (256-(len+1)) mod 256 D4 buf[0..len-1] DCS 00`
with `DCS = (256 - ((0xD4 + sum of buf) mod 256)) mod 256`, which are `len + 9` bytes, then
releases select; it reads no byte and leaves the stored opcode alone. -/
theorem writeFrame_bytes (s : PN532SPI) (buf : Nat → Nat) (len : Nat) (h : len ≤ 254) :
    (s.writeFrame buf len).trace =
        s.trace ++ [Event.select, Event.delay 2] ++
          List.map Event.write
            ([0x01, 0x00, 0x00, 0xFF, len + 1, (256 - (len + 1)) % 256, 0xD4] ++ slice buf 0 len ++
              [(256 - ((0xD4 + (slice buf 0 len).sum) % 256)) % 256, 0x00]) ++
          [Event.release] ∧
      ([0x01, 0x00, 0x00, 0xFF, len + 1, (256 - (len + 1)) % 256, 0xD4] ++ slice buf 0 len ++
        [(256 - ((0xD4 + (slice buf 0 len).sum) % 256)) % 256, 0x00]).length = len + 9 ∧
      (s.writeFrame buf len).reads = s.reads ∧
      (s.writeFrame buf len).command = s.command := by
  rw [writeFrame_eq s buf len (by omega)]
  have h1 : (len + 1) % 256 = len + 1 := by omega
  refine ⟨?_, ?_, rfl, rfl⟩
  · simp [negByte_eq, h1]
  · simp [slice_length]

/-- Witness of `writeFrame_bytes`: the three-byte command `4A 01 00`. -/
theorem writeFrame_bytes_witness :
    3 ≤ 254 ∧
    ((PN532SPI.new (fun _ => 0)).writeFrame (ofList [0x4A, 1, 0]) 3).trace =
        (PN532SPI.new (fun _ => 0)).trace ++ [Event.select, Event.delay 2] ++
          List.map Event.write
            ([0x01, 0x00, 0x00, 0xFF, 3 + 1, (256 - (3 + 1)) % 256, 0xD4] ++
              slice (ofList [0x4A, 1, 0]) 0 3 ++
              [(256 - ((0xD4 + (slice (ofList [0x4A, 1, 0]) 0 3).sum) % 256)) % 256, 0x00]) ++
          [Event.release] ∧
      ([0x01, 0x00, 0x00, 0xFF, 3 + 1, (256 - (3 + 1)) % 256, 0xD4] ++
        slice (ofList [0x4A, 1, 0]) 0 3 ++
        [(256 - ((0xD4 + (slice (ofList [0x4A, 1, 0]) 0 3).sum) % 256)) % 256, 0x00]).length
          = 3 + 9 ∧
      ((PN532SPI.new (fun _ => 0)).writeFrame (ofList [0x4A, 1, 0]) 3).reads =
        (PN532SPI.new (fun _ => 0)).reads ∧
      ((PN532SPI.new (fun _ => 0)).writeFrame (ofList [0x4A, 1, 0]) 3).command =
        (PN532SPI.new (fun _ => 0)).command :=
  ⟨by decide, writeFrame_bytes (PN532SPI.new (fun _ => 0)) (ofList [0x4A, 1, 0]) 3 (by decide)⟩

theorem envelope_eq (s : PN532SPI) (buf : Nat → Nat) (len : Nat) (h : len ≤ 255) :
    s.envelope buf len =
      [1, 0, 0, 0xFF, (len + 1) % 256, negByte ((len + 1) % 256), 0xD4] ++
        (slice buf 0 len ++ [negByte ((0xD4 + (slice buf 0 len).sum) % 256), 0]) := by
  unfold PN532SPI.envelope
  rw [writeFrame_eq s buf len h]
  simp only [List.drop_left, written_append, written_map_write]
  simp [written]

/-- C2. For every payload of `len <= 255` bytes, the bytes `w` written by `writeFrame` are
`len + 9` many, the payload sits at `w[7 .. 7+len)`, the direction byte is `w[6]`, the length
byte `w[4]` plus the length-checksum byte `w[5]` is `0` modulo 256, and the direction byte
plus the payload bytes plus the payload-checksum byte `w[7+len]` is `0` modulo 256. -/
theorem writeFrame_checksums (s : PN532SPI) (buf : Nat → Nat) (len : Nat) (h : len ≤ 255) :
    (s.envelope buf len).length = len + 9 ∧
      ((s.envelope buf len).drop 7).take len = slice buf 0 len ∧
      (s.envelope buf len).getD 6 0 = PN532_HOSTTOPN532 ∧
      ((s.envelope buf len).getD 4 0 + (s.envelope buf len).getD 5 0) % 256 = 0 ∧
      ((s.envelope buf len).getD 6 0 + (((s.envelope buf len).drop 7).take len).sum +
        (s.envelope buf len).getD (7 + len) 0) % 256 = 0 := by
  rw [envelope_eq s buf len h]
  have hlen := slice_length buf 0 len
  have htake : List.take len (slice buf 0 len ++
      [negByte ((0xD4 + (slice buf 0 len).sum) % 256), 0]) = slice buf 0 len :=
    List.take_left' hlen
  have h7 : ([1, 0, 0, 0xFF, (len + 1) % 256, negByte ((len + 1) % 256), 0xD4] ++
      (slice buf 0 len ++ [negByte ((0xD4 + (slice buf 0 len).sum) % 256), 0])).getD (7 + len) 0
      = negByte ((0xD4 + (slice buf 0 len).sum) % 256) := by
    rw [List.getD_append_right _ _ _ _ (by simp)]
    rw [List.getD_append_right _ _ _ _ (by simp [hlen])]
    simp [hlen]
  refine ⟨?_, ?_, ?_, ?_, ?_⟩
  · simp [hlen]
  · simpa using htake
  · simp [PN532_HOSTTOPN532]
  · simp [negByte_eq]
    omega
  · rw [h7]
    simp only [List.cons_append, List.nil_append, List.drop_succ_cons, List.drop_zero,
      List.getD_cons_succ, List.getD_cons_zero]
    rw [htake, negByte_eq]
    omega

/-- Witness of `writeFrame_checksums`: the longest payload, 255 bytes `FF`. -/
theorem writeFrame_checksums_witness :
    255 ≤ 255 ∧
    ((PN532SPI.new (fun _ => 0)).envelope (fun _ => 0xFF) 255).length = 255 + 9 ∧
      (((PN532SPI.new (fun _ => 0)).envelope (fun _ => 0xFF) 255).drop 7).take 255
        = slice (fun _ => 0xFF) 0 255 ∧
      ((PN532SPI.new (fun _ => 0)).envelope (fun _ => 0xFF) 255).getD 6 0 = PN532_HOSTTOPN532 ∧
      (((PN532SPI.new (fun _ => 0)).envelope (fun _ => 0xFF) 255).getD 4 0 +
        ((PN532SPI.new (fun _ => 0)).envelope (fun _ => 0xFF) 255).getD 5 0) % 256 = 0 ∧
      (((PN532SPI.new (fun _ => 0)).envelope (fun _ => 0xFF) 255).getD 6 0 +
        ((((PN532SPI.new (fun _ => 0)).envelope (fun _ => 0xFF) 255).drop 7).take 255).sum +
        ((PN532SPI.new (fun _ => 0)).envelope (fun _ => 0xFF) 255).getD (7 + 255) 0) % 256 = 0 :=
  ⟨by decide, writeFrame_checksums (PN532SPI.new (fun _ => 0)) (fun _ => 0xFF) 255 (by decide)⟩


/-! ## readResponse: the frame block -/

theorem readPayloadLoop_eq (n i sum : Nat) (buf : Nat → Nat) (s : PN532SPI) (hs : sum < 256) :
    readPayloadLoop n i sum buf s =
      ((sum + (slice s.rx s.reads n).sum) % 256,
       (fun j => if i ≤ j ∧ j < i + n then s.rx (s.reads + (j - i)) % 256 else buf j),
       { s with reads := s.reads + n,
                trace := s.trace ++ (slice s.rx s.reads n).map Event.read }) := by
  induction n generalizing i sum buf s with
  | zero =>
    simp only [readPayloadLoop, slice, List.sum_nil, Nat.add_zero, Nat.mod_eq_of_lt hs,
      List.map_nil, List.append_nil]
    congr 2
    funext j
    have : ¬ (i ≤ j ∧ j < i) := by omega
    simp [this]
  | succ n ih =>
    rw [readPayloadLoop, ih _ _ _ _ (Nat.mod_lt _ (by decide))]
    simp only [PN532SPI.read, slice, List.sum_cons, List.map_cons, List.append_assoc,
      List.singleton_append, if_true]
    refine Prod.ext ?_ (Prod.ext ?_ ?_)
    · simp only
      omega
    · funext j
      simp only
      by_cases h1 : j = i
      · subst h1
        simp
      · by_cases h2 : i + 1 ≤ j ∧ j < i + 1 + n
        · have h3 : i ≤ j ∧ j < i + (n + 1) := by omega
          have h4 : s.reads + 1 + (j - (i + 1)) = s.reads + (j - i) := by omega
          simp [h2, h3, h4]
        · have h3 : ¬ (i ≤ j ∧ j < i + (n + 1)) := by omega
          simp [h2, h3, h1]
    · simp [Nat.add_assoc, Nat.add_comm 1 n]


theorem slice_succ_last (buf : Nat → Nat) (i n : Nat) :
    slice buf i (n + 1) = slice buf i n ++ [buf (i + n) % 256] := by
  rw [slice_append]
  simp [slice]

theorem slice_header (rx : Nat → Nat) (p n : Nat) :
    slice rx p (7 + n) =
      [rx p % 256, rx (p + 1) % 256, rx (p + 2) % 256, rx (p + 3) % 256, rx (p + 4) % 256,
        rx (p + 5) % 256, rx (p + 6) % 256] ++ slice rx (p + 7) n := by
  rw [slice_append]
  simp [slice, Nat.add_assoc]

theorem body_payload (debug : Bool) (buf : Nat → Nat) (len : Nat) (s : PN532SPI)
    (h0 : s.rx s.reads % 256 = 0) (h1 : s.rx (s.reads + 1) % 256 = 0)
    (h2 : s.rx (s.reads + 2) % 256 = 255)
    (hl : (s.rx (s.reads + 3) % 256 + s.rx (s.reads + 4) % 256) % 256 = 0)
    (ht : s.rx (s.reads + 5) % 256 = 0xD5)
    (he : s.rx (s.reads + 6) % 256 = (s.command + 1) % 256)
    (n : Nat) (hn : (s.rx (s.reads + 3) % 256 + 256 - 2) % 256 = n)
    (hfit : n ≤ len) :
    readResponseBody debug buf len s =
      if (((0xD5 + (s.command + 1) % 256) % 256 + (slice s.rx (s.reads + 7) n).sum) % 256 +
          s.rx (s.reads + 7 + n) % 256) % 256 ≠ 0 then
        (PN532_INVALID_FRAME,
         (fun j => if j < n then s.rx (s.reads + 7 + j) % 256 else buf j),
         { s with reads := s.reads + (7 + n + 1),
                  trace := s.trace ++ Event.write 3 ::
                    (slice s.rx s.reads (7 + n + 1)).map Event.read })
      else
        ((n : Int),
         (fun j => if j < n then s.rx (s.reads + 7 + j) % 256 else buf j),
         { s with reads := s.reads + (7 + n + 2),
                  trace := s.trace ++ Event.write 3 ::
                    (slice s.rx s.reads (7 + n + 2)).map Event.read }) := by
  unfold readResponseBody
  simp only [PN532SPI.read, PN532SPI.write, DATA_READ, PN532_PN532TOHOST, h0, h1, h2, hl, ht, he,
    Nat.add_assoc, Nat.reduceAdd, ne_eq, not_true_eq_false, if_false, Nat.reduceMod, hn,
    Nat.not_lt.mpr hfit]
  rw [readPayloadLoop_eq _ _ _ _ _ (Nat.mod_lt _ (by decide))]
  have hb : (fun j => if 0 ≤ j ∧ j < 0 + n then s.rx (s.reads + 7 + (j - 0)) % 256 else buf j)
      = (fun j => if j < n then s.rx (s.reads + 7 + j) % 256 else buf j) := by
    funext j
    simp
  have e1 : slice s.rx s.reads (7 + (n + 1)) =
      [0, 0, 255, s.rx (s.reads + 3) % 256, s.rx (s.reads + 4) % 256, 213,
        (s.command + 1) % 256] ++ slice s.rx (s.reads + 7) n ++
        [s.rx (s.reads + 7 + n) % 256] := by
    rw [← Nat.add_assoc, slice_succ_last, slice_header, h0, h1, h2, ht, he, Nat.add_assoc]
  have e2 : slice s.rx s.reads (7 + (n + 2)) =
      [0, 0, 255, s.rx (s.reads + 3) % 256, s.rx (s.reads + 4) % 256, 213,
        (s.command + 1) % 256] ++ slice s.rx (s.reads + 7) n ++
        [s.rx (s.reads + 7 + n) % 256, s.rx (s.reads + 7 + n + 1) % 256] := by
    have : 7 + (n + 2) = (7 + (n + 1)) + 1 := by omega
    rw [this, slice_succ_last, e1]
    simp [Nat.add_assoc]
  simp only [hb, e1, e2, Nat.add_assoc]
  split
  · simp [Nat.add_assoc]
  · simp [Nat.add_assoc]

theorem body_no_space (debug : Bool) (buf : Nat → Nat) (len : Nat) (s : PN532SPI)
    (h0 : s.rx s.reads % 256 = 0) (h1 : s.rx (s.reads + 1) % 256 = 0)
    (h2 : s.rx (s.reads + 2) % 256 = 255)
    (hl : (s.rx (s.reads + 3) % 256 + s.rx (s.reads + 4) % 256) % 256 = 0)
    (ht : s.rx (s.reads + 5) % 256 = 0xD5)
    (he : s.rx (s.reads + 6) % 256 = (s.command + 1) % 256)
    (n : Nat) (hn : (s.rx (s.reads + 3) % 256 + 256 - 2) % 256 = n)
    (hbig : len < n) :
    readResponseBody debug buf len s =
      (PN532_NO_SPACE, buf,
        { s with reads := s.reads + (7 + (if debug then n else 0) + 2),
                 trace := s.trace ++ Event.write 3 ::
                   (slice s.rx s.reads (7 + (if debug then n else 0) + 2)).map Event.read }) := by
  unfold readResponseBody
  simp only [PN532SPI.read, PN532SPI.write, DATA_READ, PN532_PN532TOHOST, h0, h1, h2, hl, ht, he,
    Nat.add_assoc, Nat.reduceAdd, ne_eq, not_true_eq_false, if_false, Nat.reduceMod, hn,
    gt_iff_lt, hbig, if_true, dumpMessage]
  have e2 : ∀ m, slice s.rx s.reads (7 + (m + 2)) =
      [0, 0, 255, s.rx (s.reads + 3) % 256, s.rx (s.reads + 4) % 256, 213,
        (s.command + 1) % 256] ++ slice s.rx (s.reads + 7) m ++
        [s.rx (s.reads + 7 + m) % 256, s.rx (s.reads + 7 + m + 1) % 256] := by
    intro m
    have : 7 + (m + 2) = (7 + m) + 1 + 1 := by omega
    rw [this, slice_succ_last, slice_succ_last, slice_header, h0, h1, h2, ht, he]
    simp [Nat.add_assoc]
  cases debug
  · simp [slice, Nat.add_assoc, h0, h1, h2, ht, he]
  · simp [e2, readBytes_eq, Nat.add_assoc]

theorem body_bad_preamble (debug : Bool) (buf : Nat → Nat) (len : Nat) (s : PN532SPI)
    (h0 : s.rx s.reads % 256 ≠ 0) :
    readResponseBody debug buf len s =
      (PN532_INVALID_FRAME, buf,
        { s with reads := s.reads + 1,
                 trace := s.trace ++ Event.write 3 :: (slice s.rx s.reads 1).map Event.read }) := by
  unfold readResponseBody
  simp [PN532SPI.read, PN532SPI.write, DATA_READ, h0, slice]

theorem body_bad_start1 (debug : Bool) (buf : Nat → Nat) (len : Nat) (s : PN532SPI)
    (h0 : s.rx s.reads % 256 = 0) (h1 : s.rx (s.reads + 1) % 256 ≠ 0) :
    readResponseBody debug buf len s =
      (PN532_INVALID_FRAME, buf,
        { s with reads := s.reads + 2,
                 trace := s.trace ++ Event.write 3 :: (slice s.rx s.reads 2).map Event.read }) := by
  unfold readResponseBody
  simp [PN532SPI.read, PN532SPI.write, DATA_READ, h0, h1, slice]

theorem body_bad_start2 (debug : Bool) (buf : Nat → Nat) (len : Nat) (s : PN532SPI)
    (h0 : s.rx s.reads % 256 = 0) (h1 : s.rx (s.reads + 1) % 256 = 0)
    (h2 : s.rx (s.reads + 2) % 256 ≠ 255) :
    readResponseBody debug buf len s =
      (PN532_INVALID_FRAME, buf,
        { s with reads := s.reads + 3,
                 trace := s.trace ++ Event.write 3 :: (slice s.rx s.reads 3).map Event.read }) := by
  unfold readResponseBody
  simp [PN532SPI.read, PN532SPI.write, DATA_READ, h0, h1, h2, slice, Nat.add_assoc]

theorem body_bad_length_checksum (debug : Bool) (buf : Nat → Nat) (len : Nat) (s : PN532SPI)
    (h0 : s.rx s.reads % 256 = 0) (h1 : s.rx (s.reads + 1) % 256 = 0)
    (h2 : s.rx (s.reads + 2) % 256 = 255)
    (hl : (s.rx (s.reads + 3) % 256 + s.rx (s.reads + 4) % 256) % 256 ≠ 0) :
    readResponseBody debug buf len s =
      (PN532_INVALID_FRAME, buf,
        { s with reads := s.reads + 5,
                 trace := s.trace ++ Event.write 3 :: (slice s.rx s.reads 5).map Event.read }) := by
  unfold readResponseBody
  simp only [PN532SPI.read, PN532SPI.write, DATA_READ, h0, h1, h2, hl, Nat.add_assoc,
    Nat.reduceAdd, ne_eq, not_true_eq_false, if_false, not_false_eq_true, if_true, Nat.reduceMod]
  simp [slice, Nat.add_assoc, h0, h1, h2]

theorem body_bad_direction (debug : Bool) (buf : Nat → Nat) (len : Nat) (s : PN532SPI)
    (h0 : s.rx s.reads % 256 = 0) (h1 : s.rx (s.reads + 1) % 256 = 0)
    (h2 : s.rx (s.reads + 2) % 256 = 255)
    (hl : (s.rx (s.reads + 3) % 256 + s.rx (s.reads + 4) % 256) % 256 = 0)
    (ht : s.rx (s.reads + 5) % 256 ≠ 0xD5) :
    readResponseBody debug buf len s =
      (PN532_INVALID_FRAME, buf,
        { s with reads := s.reads + 6,
                 trace := s.trace ++ Event.write 3 :: (slice s.rx s.reads 6).map Event.read }) := by
  unfold readResponseBody
  simp only [PN532SPI.read, PN532SPI.write, DATA_READ, PN532_PN532TOHOST, h0, h1, h2, hl, ht,
    Nat.add_assoc, Nat.reduceAdd, ne_eq, not_true_eq_false, if_false, not_false_eq_true, if_true,
    Nat.reduceMod]
  simp [slice, Nat.add_assoc, h0, h1, h2]

theorem body_bad_echo (debug : Bool) (buf : Nat → Nat) (len : Nat) (s : PN532SPI)
    (h0 : s.rx s.reads % 256 = 0) (h1 : s.rx (s.reads + 1) % 256 = 0)
    (h2 : s.rx (s.reads + 2) % 256 = 255)
    (hl : (s.rx (s.reads + 3) % 256 + s.rx (s.reads + 4) % 256) % 256 = 0)
    (ht : s.rx (s.reads + 5) % 256 = 0xD5)
    (he : s.rx (s.reads + 6) % 256 ≠ (s.command + 1) % 256) :
    readResponseBody debug buf len s =
      (PN532_INVALID_FRAME, buf,
        { s with reads := s.reads + 7,
                 trace := s.trace ++ Event.write 3 :: (slice s.rx s.reads 7).map Event.read }) := by
  unfold readResponseBody
  simp only [PN532SPI.read, PN532SPI.write, DATA_READ, PN532_PN532TOHOST, h0, h1, h2, hl, ht, he,
    Nat.add_assoc, Nat.reduceAdd, ne_eq, not_true_eq_false, if_false, not_false_eq_true, if_true,
    Nat.reduceMod]
  simp [slice, Nat.add_assoc, h0, h1, h2, ht]

/-- The state in which the frame block of `readResponse` starts when the first status poll
reports ready. -/
theorem readResponse_ready (fuel : Nat) (debug : Bool) (s : PN532SPI) (buf : Nat → Nat)
    (len timeout : Nat) (hr : s.rx s.reads % 2 = 1) :
    s.readResponse (fuel + 1) debug buf len timeout =
      some ((readResponseBody debug buf len
              { s with reads := s.reads + 1,
                       trace := s.trace ++ [Event.select, Event.write 2,
                         Event.read (s.rx s.reads % 256), Event.release, Event.select,
                         Event.delay 1] }).1,
            (readResponseBody debug buf len
              { s with reads := s.reads + 1,
                       trace := s.trace ++ [Event.select, Event.write 2,
                         Event.read (s.rx s.reads % 256), Event.release, Event.select,
                         Event.delay 1] }).2.1,
            (readResponseBody debug buf len
              { s with reads := s.reads + 1,
                       trace := s.trace ++ [Event.select, Event.write 2,
                         Event.read (s.rx s.reads % 256), Event.release, Event.select,
                         Event.delay 1] }).2.2.selectHigh) := by
  unfold PN532SPI.readResponse
  simp [readyWaitLoop, isReady_eq, hr, PN532SPI.selectLow, PN532SPI.delay]

theorem slice_congr (f g : Nat → Nat) (i k n : Nat)
    (h : ∀ j, j < n → f (i + j) % 256 = g (k + j) % 256) : slice f i n = slice g k n := by
  induction n generalizing i k with
  | zero => rfl
  | succ n ih =>
    simp only [slice]
    have h0 := h 0 (by omega)
    simp only [Nat.add_zero] at h0
    rw [h0, ih (i + 1) (k + 1)]
    intro j hj
    have := h (j + 1) (by omega)
    simpa [Nat.add_assoc, Nat.add_comm 1 j] using this

/-- What `readResponse` does with a device that reports ready at once and then sends a frame
whose header is accepted and whose payload fits the buffer. -/
theorem readResponse_payload (fuel : Nat) (debug : Bool) (s : PN532SPI) (buf : Nat → Nat)
    (len timeout : Nat) (hr : s.rx s.reads % 2 = 1)
    (h0 : s.rx (s.reads + 1) % 256 = 0) (h1 : s.rx (s.reads + 2) % 256 = 0)
    (h2 : s.rx (s.reads + 3) % 256 = 255)
    (hl : (s.rx (s.reads + 4) % 256 + s.rx (s.reads + 5) % 256) % 256 = 0)
    (ht : s.rx (s.reads + 6) % 256 = 0xD5)
    (he : s.rx (s.reads + 7) % 256 = (s.command + 1) % 256)
    (n : Nat) (hn : (s.rx (s.reads + 4) % 256 + 256 - 2) % 256 = n)
    (hfit : n ≤ len) :
    s.readResponse (fuel + 1) debug buf len timeout =
      if (((0xD5 + (s.command + 1) % 256) % 256 + (slice s.rx (s.reads + 8) n).sum) % 256 +
          s.rx (s.reads + 8 + n) % 256) % 256 ≠ 0 then
        some (PN532_INVALID_FRAME,
         (fun j => if j < n then s.rx (s.reads + 8 + j) % 256 else buf j),
         { s with reads := s.reads + 1 + (7 + n + 1),
                  trace := s.trace ++ [Event.select, Event.write 2,
                      Event.read (s.rx s.reads % 256), Event.release, Event.select,
                      Event.delay 1, Event.write 3] ++
                    (slice s.rx (s.reads + 1) (7 + n + 1)).map Event.read ++ [Event.release] })
      else
        some ((n : Int),
         (fun j => if j < n then s.rx (s.reads + 8 + j) % 256 else buf j),
         { s with reads := s.reads + 1 + (7 + n + 2),
                  trace := s.trace ++ [Event.select, Event.write 2,
                      Event.read (s.rx s.reads % 256), Event.release, Event.select,
                      Event.delay 1, Event.write 3] ++
                    (slice s.rx (s.reads + 1) (7 + n + 2)).map Event.read ++ [Event.release] }) := by
  rw [readResponse_ready fuel debug s buf len timeout hr]
  rw [body_payload debug buf len _ (by simpa using h0) (by simpa [Nat.add_assoc] using h1)
    (by simpa [Nat.add_assoc] using h2) (by simpa [Nat.add_assoc] using hl)
    (by simpa [Nat.add_assoc] using ht) (by simpa [Nat.add_assoc] using he) n
    (by simpa [Nat.add_assoc] using hn) hfit]
  simp only [Nat.add_assoc, Nat.reduceAdd]
  split <;> simp [PN532SPI.selectHigh, Nat.add_assoc]

/-- Splitting a device stream that starts with seven given bytes. -/
theorem slice_frame_split (rx : Nat → Nat) (p : Nat) (a0 a1 a2 a3 a4 a5 a6 : Nat)
    (P T : List Nat)
    (h : slice rx p (P.length + 7 + T.length) = [a0, a1, a2, a3, a4, a5, a6] ++ P ++ T) :
    rx p % 256 = a0 ∧ rx (p + 1) % 256 = a1 ∧ rx (p + 2) % 256 = a2 ∧ rx (p + 3) % 256 = a3 ∧
      rx (p + 4) % 256 = a4 ∧ rx (p + 5) % 256 = a5 ∧ rx (p + 6) % 256 = a6 ∧
      slice rx (p + 7) P.length = P ∧ slice rx (p + 7 + P.length) T.length = T := by
  have e : P.length + 7 + T.length = 7 + (P.length + T.length) := by omega
  rw [e, slice_header, slice_append] at h
  simp only [List.cons_append, List.nil_append, List.cons.injEq] at h
  obtain ⟨h0, h1, h2, h3, h4, h5, h6, h7⟩ := h
  have := List.append_inj h7 (slice_length _ _ _)
  exact ⟨h0, h1, h2, h3, h4, h5, h6, this.1, this.2⟩

/-- C4. Decoding a well-formed response: with pending opcode `c = s.command`, a payload `P`
of at most 253 bytes that fits the buffer capacity `len`, and a device that reports ready
and then delivers `00 00 FF L LCS D5 e P DCS 00` (`L = |P|+2`, `LCS = (256-L) mod 256`,
`e = (c+1) mod 256`, `DCS = (256 - ((0xD5 + e + sum of P) mod 256)) mod 256`), `readResponse`
returns `|P|`, the buffer holds `P` at `0..|P|)` and is unchanged from `|P|` on, and exactly
those `|P|+9` bytes were read after the status byte, inside one select/release pair. -/
theorem readResponse_wellformed (fuel : Nat) (debug : Bool) (s : PN532SPI) (buf : Nat → Nat)
    (len timeout : Nat) (P : List Nat) (hP : P.length ≤ 253) (hlen : P.length ≤ len)
    (hready : s.rx s.reads % 2 = 1)
    (hframe : slice s.rx (s.reads + 1) (P.length + 9) =
      [0x00, 0x00, 0xFF, P.length + 2, (256 - (P.length + 2)) % 256, 0xD5,
        (s.command + 1) % 256] ++ P ++
        [(256 - ((0xD5 + (s.command + 1) % 256 + P.sum) % 256)) % 256, 0x00]) :
    ∃ buf1 s1, s.readResponse (fuel + 1) debug buf len timeout
        = some ((P.length : Int), buf1, s1) ∧
      slice buf1 0 P.length = P ∧ (∀ i, P.length ≤ i → buf1 i = buf i) ∧
      s1.reads = s.reads + 1 + (P.length + 9) ∧
      s1.trace = s.trace ++ [Event.select, Event.write 2, Event.read (s.rx s.reads % 256),
          Event.release, Event.select, Event.delay 1, Event.write 3] ++
        List.map Event.read
          ([0x00, 0x00, 0xFF, P.length + 2, (256 - (P.length + 2)) % 256, 0xD5,
            (s.command + 1) % 256] ++ P ++
            [(256 - ((0xD5 + (s.command + 1) % 256 + P.sum) % 256)) % 256, 0x00]) ++
        [Event.release] ∧
      s1.command = s.command := by
  obtain ⟨h0, h1, h2, h3, h4, h5, h6, hp, hT⟩ :=
    slice_frame_split s.rx (s.reads + 1) _ _ _ _ _ _ _ P
      [(256 - ((0xD5 + (s.command + 1) % 256 + P.sum) % 256)) % 256, 0x00] hframe
  have hk : s.rx (s.reads + 1 + 7 + P.length) % 256 =
      (256 - ((0xD5 + (s.command + 1) % 256 + P.sum) % 256)) % 256 := by
    simp only [List.length_cons, List.length_nil, slice, List.cons.injEq] at hT
    exact hT.1
  simp only [Nat.add_assoc, Nat.reduceAdd] at h0 h1 h2 h3 h4 h5 h6 hp
  have e8 : s.reads + 1 + 7 + P.length = s.reads + 8 + P.length := by omega
  rw [e8] at hk
  have hn : (s.rx (s.reads + 4) % 256 + 256 - 2) % 256 = P.length := by
    rw [h3]
    omega
  have hl : (s.rx (s.reads + 4) % 256 + s.rx (s.reads + 5) % 256) % 256 = 0 := by
    rw [h3, h4]
    omega
  have hsum : ¬ (((0xD5 + (s.command + 1) % 256) % 256 +
      (slice s.rx (s.reads + 8) P.length).sum) % 256 +
      s.rx (s.reads + 8 + P.length) % 256) % 256 ≠ 0 := by
    rw [hp, hk]
    omega
  have hfr : slice s.rx (s.reads + 1) (7 + P.length + 2) =
      [0x00, 0x00, 0xFF, P.length + 2, (256 - (P.length + 2)) % 256, 0xD5,
        (s.command + 1) % 256] ++ P ++
        [(256 - ((0xD5 + (s.command + 1) % 256 + P.sum) % 256)) % 256, 0x00] := by
    rw [← hframe]
    congr 1
    omega
  rw [readResponse_payload fuel debug s buf len timeout hready h0 h1 h2 hl h5 h6 P.length hn
    hlen, if_neg hsum]
  refine ⟨_, _, rfl, ?_, ?_, ?_, ?_, rfl⟩
  · refine Eq.trans (slice_congr _ s.rx 0 (s.reads + 8) P.length ?_) hp
    intro j hj
    simp [hj]
  · intro i hi
    have : ¬ i < P.length := by omega
    simp [this]
  · simp only
    omega
  · simp only [hfr]

/-- Witness of `readResponse_wellformed`: pending opcode `4A`, payload `01 02 03`, buffer
capacity 8. -/
theorem readResponse_wellformed_witness :
    ∃ buf1 s1,
      (deviceWith 0x4A [1, 0, 0, 0xFF, 5, 251, 0xD5, 0x4B, 1, 2, 3, 218, 0]).readResponse
          1 false (fun _ => 0xEE) 8 0 = some (3, buf1, s1) ∧
      slice buf1 0 3 = [1, 2, 3] ∧ (∀ i, 3 ≤ i → buf1 i = 0xEE) ∧
      s1.reads = 0 + 1 + (3 + 9) ∧
      s1.trace = [] ++ [Event.select, Event.write 2, Event.read 1,
          Event.release, Event.select, Event.delay 1, Event.write 3] ++
        List.map Event.read [0, 0, 0xFF, 5, 251, 0xD5, 0x4B, 1, 2, 3, 218, 0] ++
        [Event.release] ∧
      s1.command = 0x4A :=
  readResponse_wellformed 0 false
    (deviceWith 0x4A [1, 0, 0, 0xFF, 5, 251, 0xD5, 0x4B, 1, 2, 3, 218, 0]) (fun _ => 0xEE) 8 0
    [1, 2, 3] (by decide) (by decide) (by decide) (by decide)

/-! ## readResponse: rejected frames -/

theorem readResponse_bad_preamble (fuel : Nat) (debug : Bool) (s : PN532SPI) (buf : Nat → Nat)
    (len timeout : Nat) (hr : s.rx s.reads % 2 = 1) (h0 : s.rx (s.reads + 1) % 256 ≠ 0) :
    s.readResponse (fuel + 1) debug buf len timeout =
      some (PN532_INVALID_FRAME, buf,
        { s with reads := s.reads + 1 + 1,
                 trace := s.trace ++ [Event.select, Event.write 2,
                     Event.read (s.rx s.reads % 256), Event.release, Event.select,
                     Event.delay 1, Event.write 3] ++
                   (slice s.rx (s.reads + 1) 1).map Event.read ++ [Event.release] }) := by
  rw [readResponse_ready fuel debug s buf len timeout hr,
    body_bad_preamble debug buf len _ (by simpa using h0)]
  simp [PN532SPI.selectHigh]

theorem readResponse_bad_start1 (fuel : Nat) (debug : Bool) (s : PN532SPI) (buf : Nat → Nat)
    (len timeout : Nat) (hr : s.rx s.reads % 2 = 1) (h0 : s.rx (s.reads + 1) % 256 = 0)
    (h1 : s.rx (s.reads + 2) % 256 ≠ 0) :
    s.readResponse (fuel + 1) debug buf len timeout =
      some (PN532_INVALID_FRAME, buf,
        { s with reads := s.reads + 1 + 2,
                 trace := s.trace ++ [Event.select, Event.write 2,
                     Event.read (s.rx s.reads % 256), Event.release, Event.select,
                     Event.delay 1, Event.write 3] ++
                   (slice s.rx (s.reads + 1) 2).map Event.read ++ [Event.release] }) := by
  rw [readResponse_ready fuel debug s buf len timeout hr,
    body_bad_start1 debug buf len _ (by simpa using h0) (by simpa [Nat.add_assoc] using h1)]
  simp [PN532SPI.selectHigh]

theorem readResponse_bad_start2 (fuel : Nat) (debug : Bool) (s : PN532SPI) (buf : Nat → Nat)
    (len timeout : Nat) (hr : s.rx s.reads % 2 = 1) (h0 : s.rx (s.reads + 1) % 256 = 0)
    (h1 : s.rx (s.reads + 2) % 256 = 0) (h2 : s.rx (s.reads + 3) % 256 ≠ 255) :
    s.readResponse (fuel + 1) debug buf len timeout =
      some (PN532_INVALID_FRAME, buf,
        { s with reads := s.reads + 1 + 3,
                 trace := s.trace ++ [Event.select, Event.write 2,
                     Event.read (s.rx s.reads % 256), Event.release, Event.select,
                     Event.delay 1, Event.write 3] ++
                   (slice s.rx (s.reads + 1) 3).map Event.read ++ [Event.release] }) := by
  rw [readResponse_ready fuel debug s buf len timeout hr,
    body_bad_start2 debug buf len _ (by simpa using h0) (by simpa [Nat.add_assoc] using h1)
      (by simpa [Nat.add_assoc] using h2)]
  simp [PN532SPI.selectHigh]

theorem readResponse_bad_length_checksum (fuel : Nat) (debug : Bool) (s : PN532SPI)
    (buf : Nat → Nat) (len timeout : Nat) (hr : s.rx s.reads % 2 = 1)
    (h0 : s.rx (s.reads + 1) % 256 = 0) (h1 : s.rx (s.reads + 2) % 256 = 0)
    (h2 : s.rx (s.reads + 3) % 256 = 255)
    (hl : (s.rx (s.reads + 4) % 256 + s.rx (s.reads + 5) % 256) % 256 ≠ 0) :
    s.readResponse (fuel + 1) debug buf len timeout =
      some (PN532_INVALID_FRAME, buf,
        { s with reads := s.reads + 1 + 5,
                 trace := s.trace ++ [Event.select, Event.write 2,
                     Event.read (s.rx s.reads % 256), Event.release, Event.select,
                     Event.delay 1, Event.write 3] ++
                   (slice s.rx (s.reads + 1) 5).map Event.read ++ [Event.release] }) := by
  rw [readResponse_ready fuel debug s buf len timeout hr,
    body_bad_length_checksum debug buf len _ (by simpa using h0)
      (by simpa [Nat.add_assoc] using h1) (by simpa [Nat.add_assoc] using h2)
      (by simpa [Nat.add_assoc] using hl)]
  simp [PN532SPI.selectHigh]

theorem readResponse_bad_direction (fuel : Nat) (debug : Bool) (s : PN532SPI)
    (buf : Nat → Nat) (len timeout : Nat) (hr : s.rx s.reads % 2 = 1)
    (h0 : s.rx (s.reads + 1) % 256 = 0) (h1 : s.rx (s.reads + 2) % 256 = 0)
    (h2 : s.rx (s.reads + 3) % 256 = 255)
    (hl : (s.rx (s.reads + 4) % 256 + s.rx (s.reads + 5) % 256) % 256 = 0)
    (ht : s.rx (s.reads + 6) % 256 ≠ 0xD5) :
    s.readResponse (fuel + 1) debug buf len timeout =
      some (PN532_INVALID_FRAME, buf,
        { s with reads := s.reads + 1 + 6,
                 trace := s.trace ++ [Event.select, Event.write 2,
                     Event.read (s.rx s.reads % 256), Event.release, Event.select,
                     Event.delay 1, Event.write 3] ++
                   (slice s.rx (s.reads + 1) 6).map Event.read ++ [Event.release] }) := by
  rw [readResponse_ready fuel debug s buf len timeout hr,
    body_bad_direction debug buf len _ (by simpa using h0)
      (by simpa [Nat.add_assoc] using h1) (by simpa [Nat.add_assoc] using h2)
      (by simpa [Nat.add_assoc] using hl) (by simpa [Nat.add_assoc] using ht)]
  simp [PN532SPI.selectHigh]

theorem readResponse_bad_echo (fuel : Nat) (debug : Bool) (s : PN532SPI)
    (buf : Nat → Nat) (len timeout : Nat) (hr : s.rx s.reads % 2 = 1)
    (h0 : s.rx (s.reads + 1) % 256 = 0) (h1 : s.rx (s.reads + 2) % 256 = 0)
    (h2 : s.rx (s.reads + 3) % 256 = 255)
    (hl : (s.rx (s.reads + 4) % 256 + s.rx (s.reads + 5) % 256) % 256 = 0)
    (ht : s.rx (s.reads + 6) % 256 = 0xD5)
    (he : s.rx (s.reads + 7) % 256 ≠ (s.command + 1) % 256) :
    s.readResponse (fuel + 1) debug buf len timeout =
      some (PN532_INVALID_FRAME, buf,
        { s with reads := s.reads + 1 + 7,
                 trace := s.trace ++ [Event.select, Event.write 2,
                     Event.read (s.rx s.reads % 256), Event.release, Event.select,
                     Event.delay 1, Event.write 3] ++
                   (slice s.rx (s.reads + 1) 7).map Event.read ++ [Event.release] }) := by
  rw [readResponse_ready fuel debug s buf len timeout hr,
    body_bad_echo debug buf len _ (by simpa using h0)
      (by simpa [Nat.add_assoc] using h1) (by simpa [Nat.add_assoc] using h2)
      (by simpa [Nat.add_assoc] using hl) (by simpa [Nat.add_assoc] using ht)
      (by simpa [Nat.add_assoc] using he)]
  simp [PN532SPI.selectHigh]

theorem readResponse_no_space (fuel : Nat) (debug : Bool) (s : PN532SPI)
    (buf : Nat → Nat) (len timeout : Nat) (hr : s.rx s.reads % 2 = 1)
    (h0 : s.rx (s.reads + 1) % 256 = 0) (h1 : s.rx (s.reads + 2) % 256 = 0)
    (h2 : s.rx (s.reads + 3) % 256 = 255)
    (hl : (s.rx (s.reads + 4) % 256 + s.rx (s.reads + 5) % 256) % 256 = 0)
    (ht : s.rx (s.reads + 6) % 256 = 0xD5)
    (he : s.rx (s.reads + 7) % 256 = (s.command + 1) % 256)
    (n : Nat) (hn : (s.rx (s.reads + 4) % 256 + 256 - 2) % 256 = n)
    (hbig : len < n) :
    s.readResponse (fuel + 1) debug buf len timeout =
      some (PN532_NO_SPACE, buf,
        { s with reads := s.reads + 1 + (7 + (if debug then n else 0) + 2),
                 trace := s.trace ++ [Event.select, Event.write 2,
                     Event.read (s.rx s.reads % 256), Event.release, Event.select,
                     Event.delay 1, Event.write 3] ++
                   (slice s.rx (s.reads + 1) (7 + (if debug then n else 0) + 2)).map Event.read ++
                   [Event.release] }) := by
  rw [readResponse_ready fuel debug s buf len timeout hr,
    body_no_space debug buf len _ (by simpa using h0)
      (by simpa [Nat.add_assoc] using h1) (by simpa [Nat.add_assoc] using h2)
      (by simpa [Nat.add_assoc] using hl) (by simpa [Nat.add_assoc] using ht)
      (by simpa [Nat.add_assoc] using he) n (by simpa [Nat.add_assoc] using hn) hbig]
  simp [PN532SPI.selectHigh]

/-! ## Round trip through a loopback bus -/

/-- Counterexample to C3 as stated: the envelope written for the payload `4A 01`, fed back
after a ready status to a reader with buffer capacity 2, is answered with InvalidFrame and
the buffer is left as it was, so the payload is not delivered. -/
theorem roundtrip_counterexample :
    (∃ r1, (deviceWith 0x4A
          (1 :: ((deviceWith 0 []).envelope (ofList [0x4A, 1]) 2).tail)).readResponse
        1 false (fun _ => 0) 2 0 = some (PN532_INVALID_FRAME, (fun _ => 0), r1)) ∧
    ¬ (∃ buf1 r1, (deviceWith 0x4A
          (1 :: ((deviceWith 0 []).envelope (ofList [0x4A, 1]) 2).tail)).readResponse
        1 false (fun _ => 0) 2 0 = some (2, buf1, r1) ∧ slice buf1 0 2 = [0x4A, 1]) := by
  have h := readResponse_bad_direction 0 false
    (deviceWith 0x4A (1 :: ((deviceWith 0 []).envelope (ofList [0x4A, 1]) 2).tail))
    (fun _ => 0) 2 0 (by decide) (by decide) (by decide) (by decide) (by decide) (by decide)
  refine ⟨⟨_, h⟩, ?_⟩
  rintro ⟨buf1, r1, h1, -⟩
  rw [h] at h1
  simp [PN532_INVALID_FRAME] at h1

/-- C3, amended. For every payload of `n <= 250` bytes, when the envelope written by
`writeFrame` (the bytes after the data-write request byte) is fed back through a bus that
reports ready, `readResponse` with a buffer capacity of at least `n` returns InvalidFrame
and leaves the buffer unchanged: it stops at the envelope's direction byte, which is the
host-to-device `0xD4` where a response carries `0xD5`. -/
theorem roundtrip_invalid_frame (fuel : Nat) (debug : Bool) (w r : PN532SPI)
    (payload : Nat → Nat) (n : Nat) (buf : Nat → Nat) (len timeout : Nat)
    (hn : n ≤ 250) (_hcap : n ≤ len) (hready : r.rx r.reads % 2 = 1)
    (hloop : slice r.rx (r.reads + 1) (n + 8) = (w.envelope payload n).tail) :
    ∃ r1, r.readResponse (fuel + 1) debug buf len timeout
        = some (PN532_INVALID_FRAME, buf, r1) ∧
      r1.reads = r.reads + 1 + 6 ∧
      r1.trace = r.trace ++ [Event.select, Event.write 2, Event.read (r.rx r.reads % 256),
          Event.release, Event.select, Event.delay 1, Event.write 3] ++
        List.map Event.read [0x00, 0x00, 0xFF, n + 1, (256 - (n + 1)) % 256, 0xD4] ++
        [Event.release] := by
  rw [envelope_eq w payload n (by omega)] at hloop
  have e : n + 8 = 6 + (n + 2) := by omega
  rw [e, slice_append] at hloop
  have hlen : (slice r.rx (r.reads + 1) 6).length =
      [0, 0, 0xFF, (n + 1) % 256, negByte ((n + 1) % 256), 0xD4].length := by
    rw [slice_length]
    rfl
  have hloop2 : slice r.rx (r.reads + 1) 6 ++ slice r.rx (r.reads + 1 + 6) (n + 2) =
      [0, 0, 0xFF, (n + 1) % 256, negByte ((n + 1) % 256), 0xD4] ++
        (slice payload 0 n ++ [negByte ((0xD4 + (slice payload 0 n).sum) % 256), 0]) := hloop
  have h6 := (List.append_inj hloop2 hlen).1
  have h6b := h6
  simp only [slice, List.cons.injEq, Nat.add_assoc, Nat.reduceAdd, and_true] at h6
  obtain ⟨h0, h1, h2, h3, h4, h5⟩ := h6
  have hl : (r.rx (r.reads + 4) % 256 + r.rx (r.reads + 5) % 256) % 256 = 0 := by
    rw [h3, h4, negByte_eq]
    omega
  refine ⟨_, readResponse_bad_direction fuel debug r buf len timeout hready h0 h1 h2 hl
    (by rw [h5]; decide), rfl, ?_⟩
  simp only [h6b]
  have e1 : (n + 1) % 256 = n + 1 := by omega
  simp [negByte_eq, e1]

/-- Witness of `roundtrip_invalid_frame`: the payload `4A 01` and a reader with capacity 2. -/
theorem roundtrip_invalid_frame_witness :
    ∃ r1, (deviceWith 0x4A
          (1 :: ((deviceWith 0 []).envelope (ofList [0x4A, 1]) 2).tail)).readResponse
        1 false (fun _ => 0) 2 0 = some (PN532_INVALID_FRAME, (fun _ => 0), r1) ∧
      r1.reads = 0 + 1 + 6 ∧
      r1.trace = [] ++ [Event.select, Event.write 2, Event.read 1,
          Event.release, Event.select, Event.delay 1, Event.write 3] ++
        List.map Event.read [0x00, 0x00, 0xFF, 2 + 1, (256 - (2 + 1)) % 256, 0xD4] ++
        [Event.release] :=
  roundtrip_invalid_frame 0 false (deviceWith 0 [])
    (deviceWith 0x4A (1 :: ((deviceWith 0 []).envelope (ofList [0x4A, 1]) 2).tail))
    (ofList [0x4A, 1]) 2 (fun _ => 0) 2 0 (by decide) (by decide) (by decide) (by decide)

/-! ## writeCommand -/

theorem writeFrame_frame (s : PN532SPI) (buf : Nat → Nat) (len : Nat) :
    (s.writeFrame buf len).reads = s.reads ∧ (s.writeFrame buf len).rx = s.rx ∧
      (s.writeFrame buf len).command = s.command := by
  unfold PN532SPI.writeFrame
  simp only [writeFrameLoop_eq _ _ _ _ _ (show PN532_HOSTTOPN532 < 256 by decide),
    PN532SPI.selectLow, PN532SPI.selectHigh, PN532SPI.write, PN532SPI.delay, and_self]

theorem notReadyPolls_succ_last (rx : Nat → Nat) (p n : Nat) :
    notReadyPolls rx p (n + 1) = notReadyPolls rx p n ++
      [Event.select, Event.write 2, Event.read (rx (p + n) % 256), Event.release,
        Event.delay 1] := by
  induction n generalizing p with
  | zero => simp [notReadyPolls]
  | succ n ih =>
    rw [notReadyPolls, ih (p + 1), notReadyPolls]
    simp [Nat.add_assoc, Nat.add_comm 1 n]

/-- The acknowledgment wait when the device is first ready on poll `k + 1`, within the
retry count. -/
theorem ackWaitLoop_ready (k : Nat) (fuel t : Nat) (s : PN532SPI) (hf : k < fuel)
    (ht : k < t) (ht2 : t ≤ 255)
    (hnot : ∀ i, i < k → s.rx (s.reads + i) % 2 = 0) (hrdy : s.rx (s.reads + k) % 2 = 1) :
    ackWaitLoop fuel t s =
      some (true, { s with reads := s.reads + k + 1,
                           trace := s.trace ++ notReadyPolls s.rx s.reads k ++
                             [Event.select, Event.write 2, Event.read (s.rx (s.reads + k) % 256),
                               Event.release] }) := by
  induction k generalizing fuel t s with
  | zero =>
    obtain ⟨f, rfl⟩ : ∃ f, fuel = f + 1 := ⟨fuel - 1, by omega⟩
    simp only [Nat.add_zero] at hrdy
    simp [ackWaitLoop, isReady_eq, hrdy, notReadyPolls]
  | succ k ih =>
    obtain ⟨f, rfl⟩ : ∃ f, fuel = f + 1 := ⟨fuel - 1, by omega⟩
    have h0 : s.rx s.reads % 2 = 0 := by simpa using hnot 0 (by omega)
    have ht1 : (t + 255) % 256 = t - 1 := by omega
    have ht3 : t - 1 ≠ 0 := by omega
    rw [ackWaitLoop]
    simp only [isReady_eq, h0, ht1, ht3, if_false, PN532SPI.delay]
    simp only [Nat.zero_ne_one, decide_False, Bool.false_eq_true, if_false]
    rw [ih f (t - 1) _ (by omega) (by omega) (by omega)]
    · simp [notReadyPolls, Nat.add_assoc, Nat.add_comm 1 k]
    · intro i hi
      have := hnot (i + 1) (by omega)
      simpa [Nat.add_assoc, Nat.add_comm 1 i] using this
    · simpa [Nat.add_assoc, Nat.add_comm 1 k] using hrdy

/-- The acknowledgment wait when the device is not ready on any of the first `t` polls. -/
theorem ackWaitLoop_timeout (t : Nat) (fuel : Nat) (s : PN532SPI) (hf : t ≤ fuel)
    (ht : 1 ≤ t) (ht2 : t ≤ 255)
    (hnot : ∀ i, i < t → s.rx (s.reads + i) % 2 = 0) :
    ackWaitLoop fuel t s =
      some (false, { s with reads := s.reads + t,
                            trace := s.trace ++ notReadyPolls s.rx s.reads t }) := by
  induction t generalizing fuel s with
  | zero => omega
  | succ t ih =>
    obtain ⟨f, rfl⟩ : ∃ f, fuel = f + 1 := ⟨fuel - 1, by omega⟩
    have h0 : s.rx s.reads % 2 = 0 := by simpa using hnot 0 (by omega)
    have ht1 : (t + 1 + 255) % 256 = t := by omega
    rw [ackWaitLoop]
    simp only [isReady_eq, h0, ht1, PN532SPI.delay]
    simp only [Nat.zero_ne_one, decide_False, Bool.false_eq_true, if_false]
    by_cases h : t = 0
    · subst h
      simp [notReadyPolls]
    · rw [if_neg h, ih f _ (by omega) (by omega) (by omega)]
      · simp [notReadyPolls, Nat.add_assoc, Nat.add_comm 1 t]
      · intro i hi
        have := hnot (i + 1) (by omega)
        simpa [Nat.add_assoc, Nat.add_comm 1 i] using this

theorem memcmp_bounds (a b : List Nat) (ha : ∀ x ∈ a, x < 256) (hb : ∀ x ∈ b, x < 256) :
    -255 ≤ memcmp a b ∧ memcmp a b ≤ 255 := by
  induction a generalizing b with
  | nil => simp [memcmp]
  | cons x xs ih =>
    cases b with
    | nil => simp [memcmp]
    | cons y ys =>
      simp only [memcmp]
      have hx := ha x (by simp)
      have hy := hb y (by simp)
      split
      · exact ih ys (fun z hz => ha z (by simp [hz])) (fun z hz => hb z (by simp [hz]))
      · omega

theorem memcmp_eq_zero (a b : List Nat) (hlen : a.length = b.length) :
    memcmp a b = 0 ↔ a = b := by
  induction a generalizing b with
  | nil =>
    cases b with
    | nil => simp [memcmp]
    | cons y ys => simp at hlen
  | cons x xs ih =>
    cases b with
    | nil => simp at hlen
    | cons y ys =>
      simp only [memcmp, List.cons.injEq]
      by_cases h : x = y
      · simp only [h, if_true, true_and]
        exact ih ys (by simpa using hlen)
      · simp only [h, if_false, false_and, iff_false]
        omega

theorem toInt8_eq_zero (x : Int) (h1 : -255 ≤ x) (h2 : x ≤ 255) : toInt8 x = 0 ↔ x = 0 := by
  unfold toInt8
  omega

theorem readAckFrame_eq (s : PN532SPI) :
    s.readAckFrame =
      (toInt8 (memcmp (slice s.rx s.reads 6) PN532_ACK),
       { s with reads := s.reads + 6,
                trace := s.trace ++ [Event.select, Event.delay 1, Event.write 3] ++
                  (slice s.rx s.reads 6).map Event.read ++ [Event.release] }) := by
  unfold PN532SPI.readAckFrame
  simp [readBytes_eq, PN532_ACK, PN532SPI.selectLow, PN532SPI.selectHigh, PN532SPI.write,
    PN532SPI.delay, DATA_READ]

/-- The result of `readAckFrame` is zero exactly when the six bytes read are the
acknowledgment frame. -/
theorem readAckFrame_zero_iff (s : PN532SPI) :
    s.readAckFrame.1 = 0 ↔ slice s.rx s.reads 6 = PN532_ACK := by
  rw [readAckFrame_eq]
  have hb := memcmp_bounds (slice s.rx s.reads 6) PN532_ACK (slice_lt _ _ _)
    (by decide)
  simp only
  rw [toInt8_eq_zero _ hb.1 hb.2, memcmp_eq_zero _ _ (by rw [slice_length]; rfl)]

/-- The whole of `writeCommand` when the device is first ready on poll `k + 1`, within the
retry count. -/
theorem writeCommand_ready (fuel n : Nat) (s : PN532SPI) (buf : Nat → Nat) (len k : Nat)
    (hn : n ≤ 255) (hk : k < n) (hf : k < fuel)
    (hnot : ∀ i, i < k → s.rx (s.reads + i) % 2 = 0) (hrdy : s.rx (s.reads + k) % 2 = 1) :
    s.writeCommand fuel n buf len =
      some (if slice s.rx (s.reads + k + 1) 6 = PN532_ACK then 0 else PN532_INVALID_ACK,
        { command := buf 0 % 256, rx := s.rx, reads := s.reads + k + 1 + 6,
          trace := ({ s with command := buf 0 % 256 }.writeFrame buf len).trace ++
            notReadyPolls s.rx s.reads k ++
            [Event.select, Event.write 2, Event.read (s.rx (s.reads + k) % 256),
              Event.release] ++
            [Event.select, Event.delay 1, Event.write 3] ++
            (slice s.rx (s.reads + k + 1) 6).map Event.read ++ [Event.release] }) := by
  obtain ⟨e1, e2, e3⟩ := writeFrame_frame { s with command := buf 0 % 256 } buf len
  unfold PN532SPI.writeCommand
  simp only
  rw [ackWaitLoop_ready k fuel (n % 256) _ hf (by omega) (by omega)
    (by rw [e1, e2]; exact hnot) (by rw [e1, e2]; exact hrdy)]
  simp only [e1, e2, e3]
  have hz := readAckFrame_zero_iff
    { command := buf 0 % 256, rx := s.rx, reads := s.reads + k + 1,
      trace := ({ s with command := buf 0 % 256 }.writeFrame buf len).trace ++
        notReadyPolls s.rx s.reads k ++
        [Event.select, Event.write 2, Event.read (s.rx (s.reads + k) % 256), Event.release] }
  simp only at hz
  by_cases hack : slice s.rx (s.reads + k + 1) 6 = PN532_ACK
  · rw [if_neg (by rw [ne_eq, not_not]; exact hz.mpr hack), if_pos hack, readAckFrame_eq]
  · rw [if_pos (by rw [ne_eq]; exact fun h => hack (hz.mp h)), if_neg hack, readAckFrame_eq]

/-- The whole of `writeCommand` when the device is not ready on any of the first `n` polls. -/
theorem writeCommand_not_ready (fuel n : Nat) (s : PN532SPI) (buf : Nat → Nat) (len : Nat)
    (hn1 : 1 ≤ n) (hn : n ≤ 255) (hf : n ≤ fuel)
    (hnot : ∀ i, i < n → s.rx (s.reads + i) % 2 = 0) :
    s.writeCommand fuel n buf len =
      some (-2,
        { command := buf 0 % 256, rx := s.rx, reads := s.reads + n,
          trace := ({ s with command := buf 0 % 256 }.writeFrame buf len).trace ++
            notReadyPolls s.rx s.reads n }) := by
  obtain ⟨e1, e2, e3⟩ := writeFrame_frame { s with command := buf 0 % 256 } buf len
  unfold PN532SPI.writeCommand
  simp only
  have hm : n % 256 = n := by omega
  rw [hm, ackWaitLoop_timeout n fuel _ hf hn1 hn (by rw [e1, e2]; exact hnot)]
  simp only [e1, e2, e3]

theorem ack_set_ne (i v : Nat) (hi : i < 6) (hv : v ≠ PN532_ACK.getD i 0) :
    PN532_ACK.set i v ≠ PN532_ACK := by
  intro h
  have h2 : (PN532_ACK.set i v).getD i 0 = PN532_ACK.getD i 0 := by rw [h]
  apply hv
  rw [← h2]
  interval_cases i <;> simp [PN532_ACK]

/-- C5. Acknowledgment validation. With retry count `n` (at most 255) and a device that is
first ready on poll `k + 1 <= n`, `writeCommand` returns, and it returns `0` exactly when the
six bytes it reads after the data-read request byte `03` are `00 00 FF 00 FF 00`. Moreover,
whenever those six bytes are the acknowledgment with the byte at one position `i` replaced
by a different byte value `v`, `readAckFrame` returns non-zero on them and `writeCommand`
returns InvalidAck. -/
theorem writeCommand_ack_validation (fuel n : Nat) (s : PN532SPI) (buf : Nat → Nat)
    (len k : Nat) (hn : n ≤ 255) (hk : k < n) (hf : k < fuel)
    (hnot : ∀ i, i < k → s.rx (s.reads + i) % 2 = 0) (hrdy : s.rx (s.reads + k) % 2 = 1) :
    (∃ r s1, s.writeCommand fuel n buf len = some (r, s1) ∧
      (r = 0 ↔ slice s.rx (s.reads + k + 1) 6 = [0x00, 0x00, 0xFF, 0x00, 0xFF, 0x00]) ∧
      s1.trace = ({ s with command := buf 0 % 256 }.writeFrame buf len).trace ++
        notReadyPolls s.rx s.reads k ++
        [Event.select, Event.write 2, Event.read (s.rx (s.reads + k) % 256), Event.release] ++
        [Event.select, Event.delay 1, Event.write 3] ++
        (slice s.rx (s.reads + k + 1) 6).map Event.read ++ [Event.release]) ∧
    (∀ i v, i < 6 → v < 256 → v ≠ [0x00, 0x00, 0xFF, 0x00, 0xFF, 0x00].getD i 0 →
      slice s.rx (s.reads + k + 1) 6 = [0x00, 0x00, 0xFF, 0x00, 0xFF, 0x00].set i v →
      (∀ t : PN532SPI, slice t.rx t.reads 6 = [0x00, 0x00, 0xFF, 0x00, 0xFF, 0x00].set i v →
        t.readAckFrame.1 ≠ 0) ∧
      ∃ s1, s.writeCommand fuel n buf len = some (PN532_INVALID_ACK, s1)) := by
  have hw := writeCommand_ready fuel n s buf len k hn hk hf hnot hrdy
  refine ⟨⟨_, _, hw, ?_, rfl⟩, ?_⟩
  · by_cases hack : slice s.rx (s.reads + k + 1) 6 = PN532_ACK
    · simp only [if_pos hack, true_iff]
      exact hack
    · simp only [if_neg hack]
      constructor
      · intro h
        exact absurd h (by decide)
      · intro h
        exact absurd h hack
  · intro i v hi _ hv hmut
    have hne : slice s.rx (s.reads + k + 1) 6 ≠ PN532_ACK := by
      rw [hmut]
      exact ack_set_ne i v hi hv
    refine ⟨?_, ?_⟩
    · intro t ht h0
      have := (readAckFrame_zero_iff t).mp h0
      rw [ht] at this
      exact ack_set_ne i v hi hv this
    · rw [if_neg hne] at hw
      exact ⟨_, hw⟩

/-- Witness of `writeCommand_ack_validation`: retry count 10, a device that is ready on the
third poll and then sends the acknowledgment frame. -/
theorem writeCommand_ack_validation_witness :
    (∃ r s1, (deviceWith 0 [0, 0, 1, 0, 0, 0xFF, 0, 0xFF, 0]).writeCommand 10 10
        (ofList [0x4A, 1]) 2 = some (r, s1) ∧
      (r = 0 ↔ slice (ofList [0, 0, 1, 0, 0, 0xFF, 0, 0xFF, 0]) (0 + 2 + 1) 6
        = [0x00, 0x00, 0xFF, 0x00, 0xFF, 0x00]) ∧
      s1.trace = ({ (deviceWith 0 [0, 0, 1, 0, 0, 0xFF, 0, 0xFF, 0]) with
            command := 0x4A }.writeFrame (ofList [0x4A, 1]) 2).trace ++
        notReadyPolls (ofList [0, 0, 1, 0, 0, 0xFF, 0, 0xFF, 0]) 0 2 ++
        [Event.select, Event.write 2, Event.read 1, Event.release] ++
        [Event.select, Event.delay 1, Event.write 3] ++
        (slice (ofList [0, 0, 1, 0, 0, 0xFF, 0, 0xFF, 0]) (0 + 2 + 1) 6).map Event.read ++
        [Event.release]) ∧
    (∀ i v, i < 6 → v < 256 → v ≠ [0x00, 0x00, 0xFF, 0x00, 0xFF, 0x00].getD i 0 →
      slice (ofList [0, 0, 1, 0, 0, 0xFF, 0, 0xFF, 0]) (0 + 2 + 1) 6
        = [0x00, 0x00, 0xFF, 0x00, 0xFF, 0x00].set i v →
      (∀ t : PN532SPI, slice t.rx t.reads 6 = [0x00, 0x00, 0xFF, 0x00, 0xFF, 0x00].set i v →
        t.readAckFrame.1 ≠ 0) ∧
      ∃ s1, (deviceWith 0 [0, 0, 1, 0, 0, 0xFF, 0, 0xFF, 0]).writeCommand 10 10
        (ofList [0x4A, 1]) 2 = some (PN532_INVALID_ACK, s1)) :=
  writeCommand_ack_validation 10 10 (deviceWith 0 [0, 0, 1, 0, 0, 0xFF, 0, 0xFF, 0])
    (ofList [0x4A, 1]) 2 2 (by decide) (by decide) (by decide) (by decide) (by decide)

/-- C6. `writeCommand` time-out. With retry count `n` (`1 <= n <= 255`; the default is 10)
`writeCommand` returns, and it returns Timeout exactly when the first `n` status polls after
the frame all have bit 0 clear; in that case the events after the frame are exactly `n`
status polls (each followed by `delay(1)`) and no acknowledgment read. A device that is ready
on one of the first `n` polls is not timed out. -/
theorem writeCommand_timeout_iff (fuel n : Nat) (s : PN532SPI) (buf : Nat → Nat) (len : Nat)
    (hn1 : 1 ≤ n) (hn : n ≤ 255) (hf : n ≤ fuel) :
    ∃ r s1, s.writeCommand fuel n buf len = some (r, s1) ∧
      (r = PN532_TIMEOUT ↔ ∀ i, i < n → s.rx (s.reads + i) % 2 = 0) ∧
      (r = PN532_TIMEOUT →
        s1.reads = s.reads + n ∧
        s1.trace = ({ s with command := buf 0 % 256 }.writeFrame buf len).trace ++
          notReadyPolls s.rx s.reads n) ∧
      (∀ k, k < n → s.rx (s.reads + k) % 2 = 1 → r ≠ PN532_TIMEOUT) := by
  by_cases hall : ∀ i, i < n → s.rx (s.reads + i) % 2 = 0
  · refine ⟨_, _, writeCommand_not_ready fuel n s buf len hn1 hn hf hall, ?_, ?_, ?_⟩
    · simp only [PN532_TIMEOUT, true_iff]
      exact hall
    · intro _
      exact ⟨rfl, rfl⟩
    · intro k hk hr
      have := hall k hk
      omega
  · have hex : ∃ k, k < n ∧ s.rx (s.reads + k) % 2 = 1 := by
      by_contra hne
      apply hall
      intro i hi
      by_contra h0
      exact hne ⟨i, hi, by omega⟩
    have hk := Nat.find_spec hex
    have hmin : ∀ i, i < Nat.find hex → s.rx (s.reads + i) % 2 = 0 := by
      intro i hi
      have h1 := Nat.find_min hex hi
      have h2 : i < n := by omega
      have h3 : ¬ s.rx (s.reads + i) % 2 = 1 := fun h => h1 ⟨h2, h⟩
      omega
    have hw := writeCommand_ready fuel n s buf len (Nat.find hex) hn hk.1 (by omega) hmin hk.2
    have hr : (if slice s.rx (s.reads + Nat.find hex + 1) 6 = PN532_ACK then (0 : Int)
        else PN532_INVALID_ACK) ≠ PN532_TIMEOUT := by
      split <;> decide
    refine ⟨_, _, hw, ?_, ?_, ?_⟩
    · constructor
      · intro h
        exact absurd h hr
      · intro h
        exact absurd h hall
    · intro h
      exact absurd h hr
    · intro _ _ _
      exact hr

/-- Witness of `writeCommand_timeout_iff`: the default retry count 10 on a device that is
never ready. -/
theorem writeCommand_timeout_iff_witness :
    ∃ r s1, (deviceWith 0 []).writeCommand 10 PN532_ACK_WAIT_TIME (ofList [0x4A, 1]) 2
        = some (r, s1) ∧
      (r = PN532_TIMEOUT ↔ ∀ i, i < PN532_ACK_WAIT_TIME → (ofList []) (0 + i) % 2 = 0) ∧
      (r = PN532_TIMEOUT →
        s1.reads = 0 + PN532_ACK_WAIT_TIME ∧
        s1.trace = ({ (deviceWith 0 []) with command := 0x4A }.writeFrame
            (ofList [0x4A, 1]) 2).trace ++
          notReadyPolls (ofList []) 0 PN532_ACK_WAIT_TIME) ∧
      (∀ k, k < PN532_ACK_WAIT_TIME → (ofList []) (0 + k) % 2 = 1 → r ≠ PN532_TIMEOUT) :=
  writeCommand_timeout_iff 10 PN532_ACK_WAIT_TIME (deviceWith 0 []) (ofList [0x4A, 1]) 2
    (by decide) (by decide) (by decide)

/-! ## readResponse: the readiness wait -/

/-- With a budget of `0` the readiness wait goes on until the device is ready, whatever the
value of the 16-bit counter `time`. -/
theorem readyWaitLoop_unbounded (k : Nat) (fuel time : Nat) (s : PN532SPI) (hf : k < fuel)
    (hnot : ∀ i, i < k → s.rx (s.reads + i) % 2 = 0) (hrdy : s.rx (s.reads + k) % 2 = 1) :
    readyWaitLoop fuel 0 time s =
      some (true, { s with reads := s.reads + k + 1,
                           trace := s.trace ++ notReadyPolls s.rx s.reads k ++
                             [Event.select, Event.write 2, Event.read (s.rx (s.reads + k) % 256),
                               Event.release] }) := by
  induction k generalizing fuel time s with
  | zero =>
    obtain ⟨f, rfl⟩ : ∃ f, fuel = f + 1 := ⟨fuel - 1, by omega⟩
    simp only [Nat.add_zero] at hrdy
    simp [readyWaitLoop, isReady_eq, hrdy, notReadyPolls]
  | succ k ih =>
    obtain ⟨f, rfl⟩ : ∃ f, fuel = f + 1 := ⟨fuel - 1, by omega⟩
    have h0 : s.rx s.reads % 2 = 0 := by simpa using hnot 0 (by omega)
    rw [readyWaitLoop]
    simp only [isReady_eq, h0, PN532SPI.delay, gt_iff_lt, Nat.lt_irrefl, false_and, if_false]
    simp only [Nat.zero_ne_one, decide_False, Bool.false_eq_true, if_false]
    rw [ih f _ _ (by omega)]
    · simp [notReadyPolls, Nat.add_assoc, Nat.add_comm 1 k]
    · intro i hi
      have := hnot (i + 1) (by omega)
      simpa [Nat.add_assoc, Nat.add_comm 1 i] using this
    · simpa [Nat.add_assoc, Nat.add_comm 1 k] using hrdy

/-- With a budget `t` between 1 and 65534 and the counter at `time`, the readiness wait gives
up after `m = t + 1 - time` polls that all found the device not ready. -/
theorem readyWaitLoop_timeout (m : Nat) (fuel t time : Nat) (s : PN532SPI) (ht : 0 < t)
    (ht2 : t < 65535) (hm : 1 ≤ m) (htime : time + m = t + 1) (hf : m ≤ fuel)
    (hnot : ∀ i, i < m → s.rx (s.reads + i) % 2 = 0) :
    readyWaitLoop fuel t time s =
      some (false, { s with reads := s.reads + m,
                            trace := s.trace ++ notReadyPolls s.rx s.reads m }) := by
  induction m generalizing fuel time s with
  | zero => omega
  | succ m ih =>
    obtain ⟨f, rfl⟩ : ∃ f, fuel = f + 1 := ⟨fuel - 1, by omega⟩
    have h0 : s.rx s.reads % 2 = 0 := by simpa using hnot 0 (by omega)
    have ht1 : (time + 1) % 65536 = time + 1 := by omega
    rw [readyWaitLoop]
    simp only [isReady_eq, h0, ht1, PN532SPI.delay]
    simp only [Nat.zero_ne_one, decide_False, Bool.false_eq_true, if_false]
    by_cases h : m = 0
    · subst h
      have : 0 < t ∧ time + 1 > t := by omega
      simp [this, notReadyPolls]
    · have : ¬ (0 < t ∧ time + 1 > t) := by omega
      simp only [gt_iff_lt, this, if_false]
      rw [ih f _ _ (by omega) (by omega) (by omega)]
      · simp [notReadyPolls, Nat.add_assoc, Nat.add_comm 1 m]
      · intro i hi
        have := hnot (i + 1) (by omega)
        simpa [Nat.add_assoc, Nat.add_comm 1 i] using this

/-- With the budget 65535 the 16-bit counter can never exceed the budget: on a device that is
never ready the readiness wait uses up any amount of fuel. -/
theorem readyWaitLoop_65535 (fuel time : Nat) (s : PN532SPI)
    (hnot : ∀ i, s.rx (s.reads + i) % 2 = 0) :
    readyWaitLoop fuel 65535 time s = none := by
  induction fuel generalizing time s with
  | zero => rfl
  | succ f ih =>
    have h0 : s.rx s.reads % 2 = 0 := by simpa using hnot 0
    have hlt : ¬ (65535 > 0 ∧ (time + 1) % 65536 > 65535) := by omega
    rw [readyWaitLoop]
    simp only [isReady_eq, h0, PN532SPI.delay, hlt, if_false]
    simp only [Nat.zero_ne_one, decide_False, Bool.false_eq_true, if_false]
    apply ih
    intro i
    have := hnot (i + 1)
    simpa [Nat.add_assoc, Nat.add_comm 1 i] using this

/-- C7 fails at the budget 65535: on a device that is never ready, `readResponse` with
`timeout = 65535` does not return, whatever the amount of fuel; the counter `time` wraps from
65535 to 0 and `time > timeout` never holds. -/
theorem readResponse_budget_65535_never_returns (fuel : Nat) (debug : Bool) (buf : Nat → Nat)
    (len : Nat) :
    (deviceWith 0 []).readResponse fuel debug buf len 65535 = none := by
  unfold PN532SPI.readResponse
  rw [readyWaitLoop_65535 fuel 0 (deviceWith 0 []) (by intro i; simp [deviceWith, ofList])]

/-- Whatever the device sends, the frame block writes the data-read request byte, then only
reads (at least one byte), and its result is InvalidFrame, NoSpace or a length. -/
theorem readResponseBody_shape (debug : Bool) (buf : Nat → Nat) (len : Nat) (s : PN532SPI) :
    ∃ m, 1 ≤ m ∧
      (readResponseBody debug buf len s).2.2 =
        { s with reads := s.reads + m,
                 trace := s.trace ++ Event.write 3 :: (slice s.rx s.reads m).map Event.read } ∧
      ((readResponseBody debug buf len s).1 = PN532_INVALID_FRAME ∨
        (readResponseBody debug buf len s).1 = PN532_NO_SPACE ∨
        0 ≤ (readResponseBody debug buf len s).1) := by
  by_cases h0 : s.rx s.reads % 256 = 0
  swap
  · exact ⟨1, by omega, by rw [body_bad_preamble debug buf len s h0],
      Or.inl (by rw [body_bad_preamble debug buf len s h0])⟩
  by_cases h1 : s.rx (s.reads + 1) % 256 = 0
  swap
  · exact ⟨2, by omega, by rw [body_bad_start1 debug buf len s h0 h1],
      Or.inl (by rw [body_bad_start1 debug buf len s h0 h1])⟩
  by_cases h2 : s.rx (s.reads + 2) % 256 = 255
  swap
  · exact ⟨3, by omega, by rw [body_bad_start2 debug buf len s h0 h1 h2],
      Or.inl (by rw [body_bad_start2 debug buf len s h0 h1 h2])⟩
  by_cases hl : (s.rx (s.reads + 3) % 256 + s.rx (s.reads + 4) % 256) % 256 = 0
  swap
  · exact ⟨5, by omega, by rw [body_bad_length_checksum debug buf len s h0 h1 h2 hl],
      Or.inl (by rw [body_bad_length_checksum debug buf len s h0 h1 h2 hl])⟩
  by_cases ht : s.rx (s.reads + 5) % 256 = 0xD5
  swap
  · exact ⟨6, by omega, by rw [body_bad_direction debug buf len s h0 h1 h2 hl ht],
      Or.inl (by rw [body_bad_direction debug buf len s h0 h1 h2 hl ht])⟩
  by_cases he : s.rx (s.reads + 6) % 256 = (s.command + 1) % 256
  swap
  · exact ⟨7, by omega, by rw [body_bad_echo debug buf len s h0 h1 h2 hl ht he],
      Or.inl (by rw [body_bad_echo debug buf len s h0 h1 h2 hl ht he])⟩
  by_cases hbig : len < (s.rx (s.reads + 3) % 256 + 256 - 2) % 256
  · exact ⟨7 + (if debug then (s.rx (s.reads + 3) % 256 + 256 - 2) % 256 else 0) + 2, by omega,
      by rw [body_no_space debug buf len s h0 h1 h2 hl ht he _ rfl hbig],
      Or.inr (Or.inl (by rw [body_no_space debug buf len s h0 h1 h2 hl ht he _ rfl hbig]))⟩
  · have hp := body_payload debug buf len s h0 h1 h2 hl ht he _ rfl (by omega)
    by_cases hsum : (((0xD5 + (s.command + 1) % 256) % 256 +
        (slice s.rx (s.reads + 7) ((s.rx (s.reads + 3) % 256 + 256 - 2) % 256)).sum) % 256 +
        s.rx (s.reads + 7 + (s.rx (s.reads + 3) % 256 + 256 - 2) % 256) % 256) % 256 ≠ 0
    · rw [if_pos hsum] at hp
      exact ⟨7 + (s.rx (s.reads + 3) % 256 + 256 - 2) % 256 + 1, by omega, by rw [hp],
        Or.inl (by rw [hp])⟩
    · rw [if_neg hsum] at hp
      exact ⟨7 + (s.rx (s.reads + 3) % 256 + 256 - 2) % 256 + 2, by omega, by rw [hp],
        Or.inr (Or.inr (by rw [hp]; exact Int.ofNat_nonneg _))⟩

/-- C8. A budget of `0` waits forever: for every `k` (also beyond 65535), when the device is
not ready on the first `k` status polls and ready on poll `k + 1`, `readResponse` with
`timeout = 0` (and fuel for `k + 1` polls) returns a result other than Timeout; its events
are exactly `k` polls that found the device not ready (each followed by `delay(1)`), the
poll that found it ready, then select, `delay(1)`, the data-read request byte `03`, `m >= 1`
frame bytes read, and release. -/
theorem readResponse_budget_zero (fuel k : Nat) (debug : Bool) (s : PN532SPI)
    (buf : Nat → Nat) (len : Nat) (hf : k < fuel)
    (hnot : ∀ i, i < k → s.rx (s.reads + i) % 2 = 0) (hrdy : s.rx (s.reads + k) % 2 = 1) :
    ∃ r buf1 s1 m, s.readResponse fuel debug buf len 0 = some (r, buf1, s1) ∧
      r ≠ PN532_TIMEOUT ∧ 1 ≤ m ∧
      s1.reads = s.reads + (k + 1) + m ∧
      s1.trace = s.trace ++ notReadyPolls s.rx s.reads k ++
        [Event.select, Event.write 2, Event.read (s.rx (s.reads + k) % 256), Event.release] ++
        [Event.select, Event.delay 1, Event.write 3] ++
        (slice s.rx (s.reads + (k + 1)) m).map Event.read ++ [Event.release] := by
  unfold PN532SPI.readResponse
  rw [readyWaitLoop_unbounded k fuel 0 s hf hnot hrdy]
  simp only [PN532SPI.selectLow, PN532SPI.delay]
  obtain ⟨m, hm, hst, hres⟩ := readResponseBody_shape debug buf len
    { command := s.command, rx := s.rx, reads := s.reads + k + 1,
      trace := s.trace ++ notReadyPolls s.rx s.reads k ++
        [Event.select, Event.write 2, Event.read (s.rx (s.reads + k) % 256), Event.release] ++
        [Event.select] ++ [Event.delay 1] }
  refine ⟨_, _, _, m, rfl, ?_, hm, ?_, ?_⟩
  · rcases hres with h | h | h
    · rw [h]; decide
    · rw [h]; decide
    · intro h2
      rw [h2] at h
      exact absurd h (by decide)
  · rw [hst]
    simp [PN532SPI.selectHigh, Nat.add_assoc]
  · rw [hst]
    simp [PN532SPI.selectHigh, Nat.add_assoc]

/-- Witness of `readResponse_budget_zero`: a device that is ready on the third poll and then
sends a well-formed empty response to opcode `4A`. -/
theorem readResponse_budget_zero_witness :
    ∃ r buf1 s1 m,
      (deviceWith 0x4A [0, 0, 1, 0, 0, 0xFF, 2, 254, 0xD5, 0x4B, 224, 0]).readResponse
        3 false (fun _ => 0) 4 0 = some (r, buf1, s1) ∧
      r ≠ PN532_TIMEOUT ∧ 1 ≤ m ∧
      s1.reads = 0 + (2 + 1) + m ∧
      s1.trace = [] ++
        notReadyPolls (ofList [0, 0, 1, 0, 0, 0xFF, 2, 254, 0xD5, 0x4B, 224, 0]) 0 2 ++
        [Event.select, Event.write 2, Event.read 1, Event.release] ++
        [Event.select, Event.delay 1, Event.write 3] ++
        (slice (ofList [0, 0, 1, 0, 0, 0xFF, 2, 254, 0xD5, 0x4B, 224, 0]) (0 + (2 + 1)) m).map
          Event.read ++ [Event.release] :=
  readResponse_budget_zero 3 2 false
    (deviceWith 0x4A [0, 0, 1, 0, 0, 0xFF, 2, 254, 0xD5, 0x4B, 224, 0]) (fun _ => 0) 4
    (by decide) (by decide) (by decide)

/-! ## readResponse: NoSpace and corrupted frames -/

/-- C9 fails when the diagnostics are compiled out: pending opcode `4A`, buffer capacity 4,
and a ready device that sends a well-formed response with ten payload bytes `01 .. 0A`.
`readResponse` returns NoSpace and leaves the buffer alone, but it has read only nine of the
nineteen frame bytes: the next byte the bus delivers is the third payload byte `03`. -/
theorem readResponse_no_space_undrained :
    ∃ s1, (deviceWith 0x4A [1, 0, 0, 0xFF, 12, 244, 0xD5, 0x4B, 1, 2, 3, 4, 5, 6, 7, 8, 9, 10,
          169, 0]).readResponse 1 false (fun _ => 0) 4 0
        = some (PN532_NO_SPACE, (fun _ => 0), s1) ∧
      s1.reads = 1 + 9 ∧ s1.rx s1.reads = 3 ∧
      s1.trace = [Event.select, Event.write 2, Event.read 1, Event.release, Event.select,
        Event.delay 1, Event.write 3] ++
        List.map Event.read [0, 0, 0xFF, 12, 244, 0xD5, 0x4B, 1, 2] ++ [Event.release] := by
  have h := readResponse_no_space 0 false
    (deviceWith 0x4A [1, 0, 0, 0xFF, 12, 244, 0xD5, 0x4B, 1, 2, 3, 4, 5, 6, 7, 8, 9, 10, 169, 0])
    (fun _ => 0) 4 0 (by decide) (by decide) (by decide) (by decide) (by decide) (by decide)
    (by decide) 10 (by decide) (by decide)
  exact ⟨_, h, rfl, by decide, by decide⟩

/-- The well-formed frame of C10 with the byte at one of the positions preamble (0), start
code 1 (1), start code 2 (2), length checksum (4), opcode echo (6) or payload checksum
(`7 + |P|`) replaced. -/
theorem frame_set_cases (c pos v : Nat) (P : List Nat)
    (hpos : pos = 0 ∨ pos = 1 ∨ pos = 2 ∨ pos = 4 ∨ pos = 6 ∨ pos = 7 + P.length) :
    (([0x00, 0x00, 0xFF, P.length + 2, (256 - (P.length + 2)) % 256, 0xD5, (c + 1) % 256] ++ P ++
        [(256 - ((0xD5 + (c + 1) % 256 + P.sum) % 256)) % 256, 0x00]).set pos v =
      [if pos = 0 then v else 0x00, if pos = 1 then v else 0x00, if pos = 2 then v else 0xFF,
        P.length + 2, if pos = 4 then v else (256 - (P.length + 2)) % 256, 0xD5,
        if pos = 6 then v else (c + 1) % 256] ++ P ++
        [if pos = 7 + P.length then v else (256 - ((0xD5 + (c + 1) % 256 + P.sum) % 256)) % 256,
          0x00]) ∧
    ([0x00, 0x00, 0xFF, P.length + 2, (256 - (P.length + 2)) % 256, 0xD5, (c + 1) % 256] ++ P ++
        [(256 - ((0xD5 + (c + 1) % 256 + P.sum) % 256)) % 256, 0x00]).getD pos 0 =
      if pos = 0 then 0x00 else if pos = 1 then 0x00 else if pos = 2 then 0xFF else
        if pos = 4 then (256 - (P.length + 2)) % 256 else if pos = 6 then (c + 1) % 256 else
          (256 - ((0xD5 + (c + 1) % 256 + P.sum) % 256)) % 256 := by
  rcases hpos with h | h | h | h | h | h
  · subst h; simp [show ¬ 0 = 7 + P.length by omega]
  · subst h; simp [show ¬ 1 = 7 + P.length by omega]
  · subst h; simp [show ¬ 2 = 7 + P.length by omega]
  · subst h; simp [show ¬ 4 = 7 + P.length by omega]
  · subst h; simp [show ¬ 6 = 7 + P.length by omega]
  · subst h
    have hlen : ([0x00, 0x00, 0xFF, P.length + 2, (256 - (P.length + 2)) % 256, 0xD5,
        (c + 1) % 256] ++ P).length = 7 + P.length := by
      simp
      omega
    have e0 : ¬ 7 + P.length = 0 := by omega
    have e1 : ¬ 7 + P.length = 1 := by omega
    have e2 : ¬ 7 + P.length = 2 := by omega
    have e4 : ¬ 7 + P.length = 4 := by omega
    have e6 : ¬ 7 + P.length = 6 := by omega
    constructor
    · rw [List.set_append_right _ _ (by rw [hlen]), hlen]
      simp [e0, e1, e2, e4, e6]
    · rw [List.getD_append_right _ _ _ _ (by rw [hlen]), hlen]
      simp [e0, e1, e2, e4, e6]

/-- C10. InvalidFrame on corruption. Take the well-formed response `00 00 FF L LCS D5 e P DCS 00`
for pending opcode `c = s.command` whose payload `P` (at most 253 bytes) fits the buffer, and
replace the byte at one of the positions preamble, start code 1, start code 2, length
checksum, opcode echo or payload checksum by a different byte value `v`. When a ready device
delivers the result, `readResponse` returns InvalidFrame, which is negative. -/
theorem readResponse_corrupted (fuel : Nat) (debug : Bool) (s : PN532SPI) (buf : Nat → Nat)
    (len timeout : Nat) (P : List Nat) (pos v : Nat) (hP : P.length ≤ 253)
    (hlen : P.length ≤ len) (hready : s.rx s.reads % 2 = 1)
    (hpos : pos = 0 ∨ pos = 1 ∨ pos = 2 ∨ pos = 4 ∨ pos = 6 ∨ pos = 7 + P.length)
    (hv : v < 256)
    (hne : v ≠ ([0x00, 0x00, 0xFF, P.length + 2, (256 - (P.length + 2)) % 256, 0xD5,
        (s.command + 1) % 256] ++ P ++
        [(256 - ((0xD5 + (s.command + 1) % 256 + P.sum) % 256)) % 256, 0x00]).getD pos 0)
    (hframe : slice s.rx (s.reads + 1) (P.length + 9) =
      ([0x00, 0x00, 0xFF, P.length + 2, (256 - (P.length + 2)) % 256, 0xD5,
        (s.command + 1) % 256] ++ P ++
        [(256 - ((0xD5 + (s.command + 1) % 256 + P.sum) % 256)) % 256, 0x00]).set pos v) :
    ∃ r buf1 s1, s.readResponse (fuel + 1) debug buf len timeout = some (r, buf1, s1) ∧
      r = PN532_INVALID_FRAME ∧ r < 0 := by
  rw [(frame_set_cases s.command pos v P hpos).1] at hframe
  rw [(frame_set_cases s.command pos v P hpos).2] at hne
  obtain ⟨h0, h1, h2, h3, h4, h5, h6, hp, hT⟩ :=
    slice_frame_split s.rx (s.reads + 1) _ _ _ _ _ _ _ P
      [if pos = 7 + P.length then v
        else (256 - ((0xD5 + (s.command + 1) % 256 + P.sum) % 256)) % 256, 0x00] hframe
  have hk : s.rx (s.reads + 1 + 7 + P.length) % 256 =
      if pos = 7 + P.length then v
      else (256 - ((0xD5 + (s.command + 1) % 256 + P.sum) % 256)) % 256 := by
    simp only [List.length_cons, List.length_nil, slice, List.cons.injEq] at hT
    exact hT.1
  simp only [Nat.add_assoc, Nat.reduceAdd] at h0 h1 h2 h3 h4 h5 h6 hp
  have e8 : s.reads + 1 + 7 + P.length = s.reads + 8 + P.length := by omega
  rw [e8] at hk
  have hneg : PN532_INVALID_FRAME < 0 := by decide
  rcases hpos with h | h | h | h | h | h
  · subst h
    simp +decide only [↓reduceIte] at h0 hne
    exact ⟨_, _, _, readResponse_bad_preamble fuel debug s buf len timeout hready
      (by rw [h0]; exact hne), rfl, hneg⟩
  · subst h
    simp +decide only [↓reduceIte] at h0 h1 hne
    exact ⟨_, _, _, readResponse_bad_start1 fuel debug s buf len timeout hready h0
      (by rw [h1]; exact hne), rfl, hneg⟩
  · subst h
    simp +decide only [↓reduceIte] at h0 h1 h2 hne
    exact ⟨_, _, _, readResponse_bad_start2 fuel debug s buf len timeout hready h0 h1
      (by rw [h2]; exact hne), rfl, hneg⟩
  · subst h
    simp +decide only [↓reduceIte] at h0 h1 h2 h4 hne
    exact ⟨_, _, _, readResponse_bad_length_checksum fuel debug s buf len timeout hready h0 h1 h2
      (by rw [h3, h4]; omega), rfl, hneg⟩
  · subst h
    simp +decide only [↓reduceIte] at h0 h1 h2 h4 h6 hne
    exact ⟨_, _, _, readResponse_bad_echo fuel debug s buf len timeout hready h0 h1 h2
      (by rw [h3, h4]; omega) h5 (by rw [h6]; exact hne), rfl, hneg⟩
  · subst h
    have e0 : ¬ 7 + P.length = 0 := by omega
    have e1 : ¬ 7 + P.length = 1 := by omega
    have e2 : ¬ 7 + P.length = 2 := by omega
    have e4 : ¬ 7 + P.length = 4 := by omega
    have e6 : ¬ 7 + P.length = 6 := by omega
    simp only [e0, e1, e2, e4, e6, ↓reduceIte] at h0 h1 h2 h4 h6 hk hne
    have hn : (s.rx (s.reads + 4) % 256 + 256 - 2) % 256 = P.length := by
      rw [h3]
      omega
    have hsum : (((0xD5 + (s.command + 1) % 256) % 256 +
        (slice s.rx (s.reads + 8) P.length).sum) % 256 +
        s.rx (s.reads + 8 + P.length) % 256) % 256 ≠ 0 := by
      rw [hp, hk]
      omega
    have hw := readResponse_payload fuel debug s buf len timeout hready h0 h1 h2
      (by rw [h3, h4]; omega) h5 h6 P.length hn hlen
    rw [if_pos hsum] at hw
    exact ⟨_, _, _, hw, rfl, hneg⟩

/-- Witness of `readResponse_corrupted`: the response `00 00 FF 05 FB D5 4B 01 02 03 DA 00` to
opcode `4A` with its payload checksum `DA` replaced by `DB`. -/
theorem readResponse_corrupted_witness :
    ∃ r buf1 s1,
      (deviceWith 0x4A [1, 0, 0, 0xFF, 5, 251, 0xD5, 0x4B, 1, 2, 3, 219, 0]).readResponse
        1 false (fun _ => 0) 8 0 = some (r, buf1, s1) ∧
      r = PN532_INVALID_FRAME ∧ r < 0 :=
  readResponse_corrupted 0 false
    (deviceWith 0x4A [1, 0, 0, 0xFF, 5, 251, 0xD5, 0x4B, 1, 2, 3, 219, 0]) (fun _ => 0) 8 0
    [1, 2, 3] 10 219 (by decide) (by decide) (by decide) (by decide) (by decide) (by decide)
    (by decide)

/-! ## Every run of the readiness wait -/

/-- Every result of the readiness wait: either the device was not ready on `k` polls and
ready on the next one, or the wait gave up after `k >= 1` polls that all found it not
ready. -/
theorem readyWaitLoop_some (fuel t time : Nat) (s : PN532SPI) (b : Bool) (s1 : PN532SPI)
    (h : readyWaitLoop fuel t time s = some (b, s1)) :
    ∃ k, (∀ i, i < k → s.rx (s.reads + i) % 2 = 0) ∧
      ((b = true ∧ s.rx (s.reads + k) % 2 = 1 ∧
          s1 = { s with reads := s.reads + k + 1,
                        trace := s.trace ++ notReadyPolls s.rx s.reads k ++
                          [Event.select, Event.write 2, Event.read (s.rx (s.reads + k) % 256),
                            Event.release] }) ∨
        (b = false ∧ 1 ≤ k ∧
          s1 = { s with reads := s.reads + k,
                        trace := s.trace ++ notReadyPolls s.rx s.reads k })) := by
  induction fuel generalizing time s with
  | zero => simp [readyWaitLoop] at h
  | succ f ih =>
    rw [readyWaitLoop] at h
    simp only [isReady_eq, PN532SPI.delay] at h
    by_cases hr : s.rx s.reads % 2 = 1
    · simp only [hr, decide_True, if_true, Option.some.injEq, Prod.mk.injEq] at h
      refine ⟨0, fun i hi => absurd hi (Nat.not_lt_zero i), Or.inl ⟨h.1.symm, hr, ?_⟩⟩
      rw [← h.2]
      simp [notReadyPolls]
    · have h0 : s.rx s.reads % 2 = 0 := by omega
      simp only [hr, decide_False, Bool.false_eq_true, if_false] at h
      by_cases hto : t > 0 ∧ (time + 1) % 65536 > t
      · simp only [hto, and_self, if_true, Option.some.injEq, Prod.mk.injEq] at h
        refine ⟨1, ?_, Or.inr ⟨h.1.symm, Nat.le_refl 1, ?_⟩⟩
        · intro i hi
          have : i = 0 := by omega
          subst this
          simpa using h0
        · rw [← h.2]
          simp [notReadyPolls]
      · rw [if_neg hto] at h
        obtain ⟨k, hk, hcase⟩ := ih _ _ h
        simp only at hk hcase
        refine ⟨k + 1, ?_, ?_⟩
        · intro i hi
          cases i with
          | zero => simpa using h0
          | succ j =>
            have := hk j (by omega)
            simpa [Nat.add_assoc, Nat.add_comm 1 j] using this
        · rcases hcase with ⟨hb, hrdy, hs⟩ | ⟨hb, hk1, hs⟩
          · refine Or.inl ⟨hb, ?_, ?_⟩
            · simpa [Nat.add_assoc, Nat.add_comm 1 k] using hrdy
            · rw [hs]
              simp [notReadyPolls, Nat.add_assoc, Nat.add_comm 1 k]
          · refine Or.inr ⟨hb, by omega, ?_⟩
            rw [hs]
            simp [notReadyPolls, Nat.add_assoc, Nat.add_comm 1 k]

/-- The readiness wait when the device is first ready on poll `k + 1` and the budget is not
used up before that. -/
theorem readyWaitLoop_ready (k : Nat) (fuel t time : Nat) (s : PN532SPI) (hf : k < fuel)
    (ht : t < 65536) (hb : time + k ≤ t)
    (hnot : ∀ i, i < k → s.rx (s.reads + i) % 2 = 0) (hrdy : s.rx (s.reads + k) % 2 = 1) :
    readyWaitLoop fuel t time s =
      some (true, { s with reads := s.reads + k + 1,
                           trace := s.trace ++ notReadyPolls s.rx s.reads k ++
                             [Event.select, Event.write 2, Event.read (s.rx (s.reads + k) % 256),
                               Event.release] }) := by
  induction k generalizing fuel time s with
  | zero =>
    obtain ⟨f, rfl⟩ : ∃ f, fuel = f + 1 := ⟨fuel - 1, by omega⟩
    simp only [Nat.add_zero] at hrdy
    simp [readyWaitLoop, isReady_eq, hrdy, notReadyPolls]
  | succ k ih =>
    obtain ⟨f, rfl⟩ : ∃ f, fuel = f + 1 := ⟨fuel - 1, by omega⟩
    have h0 : s.rx s.reads % 2 = 0 := by simpa using hnot 0 (by omega)
    have ht1 : (time + 1) % 65536 = time + 1 := by omega
    have hto : ¬ (t > 0 ∧ time + 1 > t) := by omega
    rw [readyWaitLoop]
    simp only [isReady_eq, h0, ht1, PN532SPI.delay, hto, if_false]
    simp only [Nat.zero_ne_one, decide_False, Bool.false_eq_true, if_false]
    rw [ih f _ _ (by omega) (by omega)]
    · simp [notReadyPolls, Nat.add_assoc, Nat.add_comm 1 k]
    · intro i hi
      have := hnot (i + 1) (by omega)
      simpa [Nat.add_assoc, Nat.add_comm 1 i] using this
    · simpa [Nat.add_assoc, Nat.add_comm 1 k] using hrdy

/-- Every result of the acknowledgment wait leaves the stored opcode and the device alone. -/
theorem ackWaitLoop_frame (fuel t : Nat) (s : PN532SPI) (b : Bool) (s1 : PN532SPI)
    (h : ackWaitLoop fuel t s = some (b, s1)) :
    s1.command = s.command ∧ s1.rx = s.rx := by
  induction fuel generalizing t s with
  | zero => simp [ackWaitLoop] at h
  | succ f ih =>
    rw [ackWaitLoop] at h
    simp only [isReady_eq, PN532SPI.delay] at h
    by_cases hr : s.rx s.reads % 2 = 1
    · simp only [hr, decide_True, if_true, Option.some.injEq, Prod.mk.injEq] at h
      rw [← h.2]
      exact ⟨rfl, rfl⟩
    · simp only [hr, decide_False, Bool.false_eq_true, if_false] at h
      by_cases hto : (t + 255) % 256 = 0
      · simp only [hto, if_true, Option.some.injEq, Prod.mk.injEq] at h
        rw [← h.2]
        exact ⟨rfl, rfl⟩
      · rw [if_neg hto] at h
        have := ih _ _ h
        exact this

/-! ## The stored opcode -/

/-- Whatever `writeCommand` returns, the stored opcode is then the first command byte, and
the device is the same. -/
theorem writeCommand_frame (fuel n : Nat) (s : PN532SPI) (buf : Nat → Nat) (len : Nat)
    (r : Int) (s1 : PN532SPI) (h : s.writeCommand fuel n buf len = some (r, s1)) :
    s1.command = buf 0 % 256 ∧ s1.rx = s.rx := by
  obtain ⟨-, e2, e3⟩ := writeFrame_frame { s with command := buf 0 % 256 } buf len
  unfold PN532SPI.writeCommand at h
  simp only at h
  cases hw : ackWaitLoop fuel (n % 256) ({ s with command := buf 0 % 256 }.writeFrame buf len) with
  | none => simp [hw] at h
  | some p =>
    obtain ⟨b, s2⟩ := p
    obtain ⟨c1, c2⟩ := ackWaitLoop_frame _ _ _ _ _ hw
    rw [e3] at c1
    rw [e2] at c2
    rw [hw] at h
    cases b with
    | false =>
      simp only [Option.some.injEq, Prod.mk.injEq] at h
      rw [← h.2]
      exact ⟨c1, c2⟩
    | true =>
      simp only [readAckFrame_eq] at h
      split at h
      · simp only [Option.some.injEq, Prod.mk.injEq] at h
        rw [← h.2]
        exact ⟨c1, c2⟩
      · simp only [Option.some.injEq, Prod.mk.injEq] at h
        rw [← h.2]
        exact ⟨c1, c2⟩

/-- Whatever `readResponse` returns, the stored opcode and the device are unchanged. -/
theorem readResponse_frame (fuel : Nat) (debug : Bool) (s : PN532SPI) (buf : Nat → Nat)
    (len timeout : Nat) (r : Int) (buf1 : Nat → Nat) (s1 : PN532SPI)
    (h : s.readResponse fuel debug buf len timeout = some (r, buf1, s1)) :
    s1.command = s.command ∧ s1.rx = s.rx := by
  unfold PN532SPI.readResponse at h
  cases hw : readyWaitLoop fuel timeout 0 s with
  | none => simp [hw] at h
  | some p =>
    obtain ⟨b, s2⟩ := p
    obtain ⟨k, -, hcase⟩ := readyWaitLoop_some _ _ _ _ _ _ hw
    rw [hw] at h
    rcases hcase with ⟨hb, -, hs⟩ | ⟨hb, -, hs⟩
    · subst hb
      simp only [Option.some.injEq, Prod.mk.injEq] at h
      obtain ⟨m, -, hst, -⟩ := readResponseBody_shape debug buf len (s2.selectLow.delay 1)
      rw [← h.2.2, hst, hs]
      exact ⟨rfl, rfl⟩
    · subst hb
      simp only [Option.some.injEq, Prod.mk.injEq] at h
      rw [← h.2.2, hs]
      exact ⟨rfl, rfl⟩

/-- C15. `isReady` returns true exactly when bit 0 of the status byte the bus returns is 1,
whatever the other bits are, and its events are exactly: assert select, write the
status-read request byte `02`, read one byte, release select. -/
theorem isReady_bit0 (s : PN532SPI) :
    (s.isReady.1 = true ↔ (s.rx s.reads % 256).testBit 0 = true) ∧
      (s.isReady.1 = true ↔ (s.rx s.reads % 256) % 2 = 1) ∧
      s.isReady.2.trace = s.trace ++
        [Event.select, Event.write 0x02, Event.read (s.rx s.reads % 256), Event.release] ∧
      s.isReady.2.reads = s.reads + 1 := by
  rw [isReady_eq]
  have h2 : s.rx s.reads % 256 % 2 = s.rx s.reads % 2 := by omega
  refine ⟨?_, ?_, rfl, rfl⟩
  · rw [Nat.testBit_zero, h2]
  · rw [h2]
    simp

/-! ## Opcode correlation -/

/-- A ready device sends a frame that is well formed for the echoed command byte `e`:
`readResponse` delivers the payload when `e` is the stored opcode plus one (modulo 256), and
answers InvalidFrame, leaving the buffer alone, for every other `e`. -/
theorem readResponse_echo (fuel : Nat) (debug : Bool) (s : PN532SPI) (buf : Nat → Nat)
    (len timeout : Nat) (P : List Nat) (e : Nat) (hP : P.length ≤ 253) (hlen : P.length ≤ len)
    (hready : s.rx s.reads % 2 = 1)
    (hframe : slice s.rx (s.reads + 1) (P.length + 9) =
      [0x00, 0x00, 0xFF, P.length + 2, (256 - (P.length + 2)) % 256, 0xD5, e] ++ P ++
        [(256 - ((0xD5 + e + P.sum) % 256)) % 256, 0x00]) :
    ∃ r buf1 s1, s.readResponse (fuel + 1) debug buf len timeout = some (r, buf1, s1) ∧
      (e = (s.command + 1) % 256 →
        r = (P.length : Int) ∧ slice buf1 0 P.length = P ∧
          ∀ i, P.length ≤ i → buf1 i = buf i) ∧
      (e ≠ (s.command + 1) % 256 → r = PN532_INVALID_FRAME ∧ buf1 = buf) := by
  obtain ⟨h0, h1, h2, h3, h4, h5, h6, hp, hT⟩ :=
    slice_frame_split s.rx (s.reads + 1) _ _ _ _ _ _ _ P
      [(256 - ((0xD5 + e + P.sum) % 256)) % 256, 0x00] hframe
  have hk : s.rx (s.reads + 1 + 7 + P.length) % 256 =
      (256 - ((0xD5 + e + P.sum) % 256)) % 256 := by
    simp only [List.length_cons, List.length_nil, slice, List.cons.injEq] at hT
    exact hT.1
  simp only [Nat.add_assoc, Nat.reduceAdd] at h0 h1 h2 h3 h4 h5 h6 hp
  have e8 : s.reads + 1 + 7 + P.length = s.reads + 8 + P.length := by omega
  rw [e8] at hk
  have hl : (s.rx (s.reads + 4) % 256 + s.rx (s.reads + 5) % 256) % 256 = 0 := by
    rw [h3, h4]
    omega
  by_cases hecho : e = (s.command + 1) % 256
  · have hn : (s.rx (s.reads + 4) % 256 + 256 - 2) % 256 = P.length := by
      rw [h3]
      omega
    have hsum : ¬ (((0xD5 + (s.command + 1) % 256) % 256 +
        (slice s.rx (s.reads + 8) P.length).sum) % 256 +
        s.rx (s.reads + 8 + P.length) % 256) % 256 ≠ 0 := by
      rw [hp, hk, hecho]
      omega
    have hw := readResponse_payload fuel debug s buf len timeout hready h0 h1 h2 hl h5
      (by rw [h6]; exact hecho) P.length hn hlen
    rw [if_neg hsum] at hw
    refine ⟨_, _, _, hw, fun _ => ⟨rfl, ?_, ?_⟩, fun h => absurd hecho h⟩
    · refine Eq.trans (slice_congr _ s.rx 0 (s.reads + 8) P.length ?_) hp
      intro j hj
      simp [hj]
    · intro i hi
      have : ¬ i < P.length := by omega
      simp [this]
  · exact ⟨_, _, _, readResponse_bad_echo fuel debug s buf len timeout hready h0 h1 h2 hl h5
      (by rw [h6]; exact hecho), fun h => absurd h hecho, fun _ => ⟨rfl, rfl⟩⟩

/-- C11. Opcode correlation. After `writeCommand` has been called with a command whose first
byte is `c` (whatever it returned), let a ready device send a response that is well formed
for the echoed command byte `e` and whose payload fits the buffer. Then `readResponse`
succeeds (returns `|P|` and delivers `P`) exactly when `e = (c + 1) mod 256`, and returns
InvalidFrame for every other `e`. -/
theorem opcode_correlation (fuel n : Nat) (s : PN532SPI) (cmd : Nat → Nat) (cmdLen : Nat)
    (r : Int) (s1 : PN532SPI) (hw : s.writeCommand fuel n cmd cmdLen = some (r, s1))
    (fuel2 : Nat) (debug : Bool) (buf : Nat → Nat) (len timeout : Nat) (P : List Nat) (e : Nat)
    (hP : P.length ≤ 253) (hlen : P.length ≤ len) (hready : s1.rx s1.reads % 2 = 1)
    (hframe : slice s1.rx (s1.reads + 1) (P.length + 9) =
      [0x00, 0x00, 0xFF, P.length + 2, (256 - (P.length + 2)) % 256, 0xD5, e] ++ P ++
        [(256 - ((0xD5 + e + P.sum) % 256)) % 256, 0x00]) :
    ∃ r2 buf1 s2, s1.readResponse (fuel2 + 1) debug buf len timeout = some (r2, buf1, s2) ∧
      (e = (cmd 0 % 256 + 1) % 256 → r2 = (P.length : Int) ∧ slice buf1 0 P.length = P) ∧
      (e ≠ (cmd 0 % 256 + 1) % 256 → r2 = PN532_INVALID_FRAME) ∧
      (0 ≤ r2 ↔ e = (cmd 0 % 256 + 1) % 256) := by
  have hc := (writeCommand_frame fuel n s cmd cmdLen r s1 hw).1
  obtain ⟨r2, buf1, s2, hres, hyes, hno⟩ :=
    readResponse_echo fuel2 debug s1 buf len timeout P e hP hlen hready hframe
  rw [hc] at hyes hno
  refine ⟨r2, buf1, s2, hres, fun h => ⟨(hyes h).1, (hyes h).2.1⟩, fun h => (hno h).1, ?_⟩
  constructor
  · intro hnn
    by_contra hne
    rw [(hno hne).1] at hnn
    exact absurd hnn (by decide)
  · intro h
    rw [(hyes h).1]
    exact Int.ofNat_nonneg _

/-- Witness of `opcode_correlation`: the command `4A 01` is acknowledged, and the device then
answers with the echoed byte `4B` and the payload `01 02 03`. -/
theorem opcode_correlation_witness :
    ∃ s1, (deviceWith 0 [1, 0, 0, 0xFF, 0, 0xFF, 0, 1, 0, 0, 0xFF, 5, 251, 0xD5, 0x4B, 1, 2, 3,
        218, 0]).writeCommand 1 10 (ofList [0x4A, 1]) 2 = some (0, s1) ∧
      ∃ r2 buf1 s2, s1.readResponse 1 false (fun _ => 0) 8 0 = some (r2, buf1, s2) ∧
        (0x4B = (ofList [0x4A, 1] 0 % 256 + 1) % 256 →
          r2 = (([1, 2, 3] : List Nat).length : Int) ∧ slice buf1 0 3 = [1, 2, 3]) ∧
        (0x4B ≠ (ofList [0x4A, 1] 0 % 256 + 1) % 256 → r2 = PN532_INVALID_FRAME) ∧
        (0 ≤ r2 ↔ 0x4B = (ofList [0x4A, 1] 0 % 256 + 1) % 256) := by
  have hw := writeCommand_ready 1 10
    (deviceWith 0 [1, 0, 0, 0xFF, 0, 0xFF, 0, 1, 0, 0, 0xFF, 5, 251, 0xD5, 0x4B, 1, 2, 3, 218, 0])
    (ofList [0x4A, 1]) 2 0 (by decide) (by decide) (by decide) (by decide) (by decide)
  rw [if_pos (by decide)] at hw
  exact ⟨_, hw, opcode_correlation 1 10 _ (ofList [0x4A, 1]) 2 0 _ hw 0 false (fun _ => 0) 8 0
    [1, 2, 3] 0x4B (by decide) (by decide) (by decide) (by decide)⟩

/-! ## The stored opcode across operations -/

/-- C17. The stored opcode. Whatever `writeCommand` returns (success, Timeout or
InvalidAck), the stored opcode is afterwards the first byte of the command; `readResponse`
(whatever it returns), `isReady`, `writeFrame` and `readAckFrame` leave it unchanged. So
also after a failed `writeCommand` the next `readResponse` accepts an (empty, otherwise
well-formed) response exactly when its echoed byte is that first byte plus one. -/
theorem command_frame (fuel n : Nat) (s : PN532SPI) (buf : Nat → Nat) (len : Nat) :
    (∀ r s1, s.writeCommand fuel n buf len = some (r, s1) → s1.command = buf 0 % 256) ∧
      (∀ debug dst cap timeout r dst1 s1,
        s.readResponse fuel debug dst cap timeout = some (r, dst1, s1) →
          s1.command = s.command) ∧
      s.isReady.2.command = s.command ∧
      (s.writeFrame buf len).command = s.command ∧
      s.readAckFrame.2.command = s.command ∧
      (∀ r s1, s.writeCommand fuel n buf len = some (r, s1) → r ≠ 0 →
        ∀ debug dst cap timeout e, s1.rx s1.reads % 2 = 1 →
          slice s1.rx (s1.reads + 1) 9 =
            [0x00, 0x00, 0xFF, 2, 254, 0xD5, e, (256 - ((0xD5 + e) % 256)) % 256, 0x00] →
          ∃ r2 dst1 s2, s1.readResponse 1 debug dst cap timeout = some (r2, dst1, s2) ∧
            (0 ≤ r2 ↔ e = (buf 0 % 256 + 1) % 256)) := by
  refine ⟨?_, ?_, ?_, (writeFrame_frame s buf len).2.2, ?_, ?_⟩
  · intro r s1 h
    exact (writeCommand_frame fuel n s buf len r s1 h).1
  · intro debug dst cap timeout r dst1 s1 h
    exact (readResponse_frame fuel debug s dst cap timeout r dst1 s1 h).1
  · rw [isReady_eq]
  · rw [readAckFrame_eq]
  · intro r s1 hw _ debug dst cap timeout e hready hframe
    have hc := (writeCommand_frame fuel n s buf len r s1 hw).1
    obtain ⟨r2, dst1, s2, hres, hyes, hno⟩ :=
      readResponse_echo 0 debug s1 dst cap timeout [] e (by decide) (Nat.zero_le _) hready
        (by simpa using hframe)
    rw [hc] at hyes hno
    refine ⟨r2, dst1, s2, hres, ?_, ?_⟩
    · intro hnn
      by_contra hne
      rw [(hno hne).1] at hnn
      exact absurd hnn (by decide)
    · intro h
      rw [(hyes h).1]
      decide

/-- Witness of `command_frame`: on a device that is never ready `writeCommand` with the
command `4A 01` times out, and the stored opcode, `00` before, is `4A` afterwards. -/
theorem command_frame_witness :
    ∃ s1, (deviceWith 0 []).writeCommand 10 10 (ofList [0x4A, 1]) 2 = some (PN532_TIMEOUT, s1) ∧
      s1.command = 0x4A :=
  ⟨_, writeCommand_not_ready 10 10 (deviceWith 0 []) (ofList [0x4A, 1]) 2 (by decide)
      (by decide) (by decide) (by decide),
    (command_frame 10 10 (deviceWith 0 []) (ofList [0x4A, 1]) 2).1 _ _
      (writeCommand_not_ready 10 10 (deviceWith 0 []) (ofList [0x4A, 1]) 2 (by decide)
        (by decide) (by decide) (by decide))⟩

/-! ## How much of a rejected frame is read -/

/-- Counterexample to C12 as stated: the response `00 00 FF 05 FB D5 4B 01 02 03 DA 00` to
opcode `4A` with its preamble replaced by `FF`. `readResponse` returns InvalidFrame after
reading one byte of the twelve and releases select. -/
theorem invalid_frame_counterexample :
    ∃ s1, (deviceWith 0x4A [1, 0xFF, 0, 0xFF, 5, 251, 0xD5, 0x4B, 1, 2, 3, 218, 0]).readResponse
        1 false (fun _ => 0) 8 0 = some (PN532_INVALID_FRAME, (fun _ => 0), s1) ∧
      s1.reads = 1 + 1 ∧ s1.reads ≠ 1 + 12 ∧
      s1.trace = [Event.select, Event.write 2, Event.read 1, Event.release, Event.select,
        Event.delay 1, Event.write 3, Event.read 0xFF, Event.release] := by
  have h := readResponse_bad_preamble 0 false
    (deviceWith 0x4A [1, 0xFF, 0, 0xFF, 5, 251, 0xD5, 0x4B, 1, 2, 3, 218, 0]) (fun _ => 0) 8 0
    (by decide) (by decide)
  exact ⟨_, h, rfl, by decide, by decide⟩

/-- C12, amended. Whenever `readResponse` (on a device that is ready at the first poll)
returns InvalidFrame, it has released select right after reading the byte that failed its
check, without reading the rest of the frame: it has read `m` frame bytes, where `m = 1`
(bad preamble), `2` (bad start code 1), `3` (bad start code 2), `5` (bad length checksum),
`6` (bad direction byte), `7` (bad opcode echo) or `7 + n + 1` with `n = (L - 2) mod 256`
(bad payload checksum: everything but the postamble). -/
theorem invalid_frame_stops (fuel : Nat) (debug : Bool) (s : PN532SPI) (buf : Nat → Nat)
    (len timeout : Nat) (buf1 : Nat → Nat) (s1 : PN532SPI) (hready : s.rx s.reads % 2 = 1)
    (hres : s.readResponse (fuel + 1) debug buf len timeout
      = some (PN532_INVALID_FRAME, buf1, s1)) :
    ∃ m, s1.reads = s.reads + 1 + m ∧
      s1.trace = s.trace ++ [Event.select, Event.write 2, Event.read (s.rx s.reads % 256),
          Event.release, Event.select, Event.delay 1, Event.write 3] ++
        (slice s.rx (s.reads + 1) m).map Event.read ++ [Event.release] ∧
      ((m = 1 ∧ s.rx (s.reads + 1) % 256 ≠ 0x00) ∨
        (m = 2 ∧ s.rx (s.reads + 2) % 256 ≠ 0x00) ∨
        (m = 3 ∧ s.rx (s.reads + 3) % 256 ≠ 0xFF) ∨
        (m = 5 ∧ (s.rx (s.reads + 4) % 256 + s.rx (s.reads + 5) % 256) % 256 ≠ 0) ∨
        (m = 6 ∧ s.rx (s.reads + 6) % 256 ≠ 0xD5) ∨
        (m = 7 ∧ s.rx (s.reads + 7) % 256 ≠ (s.command + 1) % 256) ∨
        (m = 7 + (s.rx (s.reads + 4) % 256 + 256 - 2) % 256 + 1 ∧
          (s.rx (s.reads + 4) % 256 + 256 - 2) % 256 ≤ len ∧
          (((0xD5 + (s.command + 1) % 256) % 256 +
              (slice s.rx (s.reads + 8) ((s.rx (s.reads + 4) % 256 + 256 - 2) % 256)).sum) % 256 +
            s.rx (s.reads + 8 + (s.rx (s.reads + 4) % 256 + 256 - 2) % 256) % 256) % 256
            ≠ 0)) := by
  by_cases h0 : s.rx (s.reads + 1) % 256 = 0
  swap
  · rw [readResponse_bad_preamble fuel debug s buf len timeout hready h0] at hres
    simp only [Option.some.injEq, Prod.mk.injEq, true_and] at hres
    exact ⟨1, by rw [← hres.2], by rw [← hres.2], Or.inl ⟨rfl, h0⟩⟩
  by_cases h1 : s.rx (s.reads + 2) % 256 = 0
  swap
  · rw [readResponse_bad_start1 fuel debug s buf len timeout hready h0 h1] at hres
    simp only [Option.some.injEq, Prod.mk.injEq, true_and] at hres
    exact ⟨2, by rw [← hres.2], by rw [← hres.2], Or.inr (Or.inl ⟨rfl, h1⟩)⟩
  by_cases h2 : s.rx (s.reads + 3) % 256 = 255
  swap
  · rw [readResponse_bad_start2 fuel debug s buf len timeout hready h0 h1 h2] at hres
    simp only [Option.some.injEq, Prod.mk.injEq, true_and] at hres
    exact ⟨3, by rw [← hres.2], by rw [← hres.2], Or.inr (Or.inr (Or.inl ⟨rfl, h2⟩))⟩
  by_cases hl : (s.rx (s.reads + 4) % 256 + s.rx (s.reads + 5) % 256) % 256 = 0
  swap
  · rw [readResponse_bad_length_checksum fuel debug s buf len timeout hready h0 h1 h2 hl]
      at hres
    simp only [Option.some.injEq, Prod.mk.injEq, true_and] at hres
    exact ⟨5, by rw [← hres.2], by rw [← hres.2],
      Or.inr (Or.inr (Or.inr (Or.inl ⟨rfl, hl⟩)))⟩
  by_cases ht : s.rx (s.reads + 6) % 256 = 0xD5
  swap
  · rw [readResponse_bad_direction fuel debug s buf len timeout hready h0 h1 h2 hl ht] at hres
    simp only [Option.some.injEq, Prod.mk.injEq, true_and] at hres
    exact ⟨6, by rw [← hres.2], by rw [← hres.2],
      Or.inr (Or.inr (Or.inr (Or.inr (Or.inl ⟨rfl, ht⟩))))⟩
  by_cases he : s.rx (s.reads + 7) % 256 = (s.command + 1) % 256
  swap
  · rw [readResponse_bad_echo fuel debug s buf len timeout hready h0 h1 h2 hl ht he] at hres
    simp only [Option.some.injEq, Prod.mk.injEq, true_and] at hres
    exact ⟨7, by rw [← hres.2], by rw [← hres.2],
      Or.inr (Or.inr (Or.inr (Or.inr (Or.inr (Or.inl ⟨rfl, he⟩)))))⟩
  by_cases hbig : len < (s.rx (s.reads + 4) % 256 + 256 - 2) % 256
  · rw [readResponse_no_space fuel debug s buf len timeout hready h0 h1 h2 hl ht he _ rfl hbig]
      at hres
    simp only [Option.some.injEq, Prod.mk.injEq] at hres
    exact absurd hres.1 (by decide)
  · have hw := readResponse_payload fuel debug s buf len timeout hready h0 h1 h2 hl ht he _ rfl
      (Nat.le_of_not_lt hbig)
    by_cases hsum : (((0xD5 + (s.command + 1) % 256) % 256 +
        (slice s.rx (s.reads + 8) ((s.rx (s.reads + 4) % 256 + 256 - 2) % 256)).sum) % 256 +
        s.rx (s.reads + 8 + (s.rx (s.reads + 4) % 256 + 256 - 2) % 256) % 256) % 256 ≠ 0
    · rw [if_pos hsum] at hw
      rw [hw] at hres
      simp only [Option.some.injEq, Prod.mk.injEq, true_and] at hres
      exact ⟨_, by rw [← hres.2], by rw [← hres.2],
        Or.inr (Or.inr (Or.inr (Or.inr (Or.inr (Or.inr
          ⟨rfl, Nat.le_of_not_lt hbig, hsum⟩)))))⟩
    · rw [if_neg hsum] at hw
      rw [hw] at hres
      simp only [Option.some.injEq, Prod.mk.injEq] at hres
      have : (0 : Int) ≤ PN532_INVALID_FRAME := by
        rw [← hres.1]
        exact Int.ofNat_nonneg _
      exact absurd this (by decide)

/-- Witness of `invalid_frame_stops`: the response to opcode `4A` whose payload checksum `DA`
is replaced by `DB`. -/
theorem invalid_frame_stops_witness :
    ∃ buf1 s1 m,
      (deviceWith 0x4A [1, 0, 0, 0xFF, 5, 251, 0xD5, 0x4B, 1, 2, 3, 219, 0]).readResponse
        1 false (fun _ => 0) 8 0 = some (PN532_INVALID_FRAME, buf1, s1) ∧
      s1.reads = 0 + 1 + m ∧ m = 11 := by
  have hw := readResponse_payload 0 false
    (deviceWith 0x4A [1, 0, 0, 0xFF, 5, 251, 0xD5, 0x4B, 1, 2, 3, 219, 0]) (fun _ => 0) 8 0
    (by decide) (by decide) (by decide) (by decide) (by decide) (by decide) (by decide) 3
    (by decide) (by decide)
  rw [if_pos (by decide)] at hw
  obtain ⟨m, hm, -, hcase⟩ := invalid_frame_stops 0 false _ _ 8 0 _ _ (by decide) hw
  refine ⟨_, _, m, hw, hm, ?_⟩
  have hm2 : m = 11 := by
    simp only at hm
    omega
  exact hm2

/-! ## Length bytes below 2 -/

/-- C13 fails on the code: pending opcode `4A`, buffer capacity 4, and a ready device that
sends `00 00 FF 00 00 D5 4B E0 00`, whose length byte is 0 and whose trailing checksum `E0` is
valid for zero payload bytes. The 8-bit subtraction `length -= 2` wraps to 254, which exceeds
the capacity, and `readResponse` reports NoSpace. -/
theorem short_length_no_space :
    ∃ s1, (deviceWith 0x4A [1, 0, 0, 0xFF, 0, 0, 0xD5, 0x4B, 224, 0]).readResponse
        1 false (fun _ => 0) 4 0 = some (PN532_NO_SPACE, (fun _ => 0), s1) :=
  ⟨_, readResponse_no_space 0 false
    (deviceWith 0x4A [1, 0, 0, 0xFF, 0, 0, 0xD5, 0x4B, 224, 0]) (fun _ => 0) 4 0
    (by decide) (by decide) (by decide) (by decide) (by decide) (by decide) (by decide) 254
    (by decide) (by decide)⟩

/-- What the code does with a length byte `L` of 0 or 1 (matching length checksum, correct
direction byte and opcode echo): the 8-bit effective payload length `L - 2` wraps to
`n = L + 254`. For every buffer capacity `len < n`, `readResponse` reports NoSpace and leaves
the caller's buffer unchanged; for `len >= n` it copies the next `n` bus bytes into the buffer
and returns `n`, or InvalidFrame when the checksum byte after them does not match. -/
theorem short_length_wraps (fuel : Nat) (debug : Bool) (s : PN532SPI) (buf : Nat → Nat)
    (len timeout L : Nat) (hL : L = 0 ∨ L = 1) (hready : s.rx s.reads % 2 = 1)
    (hframe : slice s.rx (s.reads + 1) 7 =
      [0x00, 0x00, 0xFF, L, (256 - L) % 256, 0xD5, (s.command + 1) % 256]) :
    (len < L + 254 →
      ∃ s1, s.readResponse (fuel + 1) debug buf len timeout = some (PN532_NO_SPACE, buf, s1)) ∧
    (L + 254 ≤ len →
      ∃ r buf1 s1, s.readResponse (fuel + 1) debug buf len timeout = some (r, buf1, s1) ∧
        (r = ((L + 254 : Nat) : Int) ∨ r = PN532_INVALID_FRAME) ∧
        slice buf1 0 (L + 254) = slice s.rx (s.reads + 8) (L + 254) ∧
        s1.reads ≥ s.reads + 8 + (L + 254)) := by
  simp only [slice, List.cons.injEq, Nat.add_assoc, Nat.reduceAdd, and_true] at hframe
  obtain ⟨h0, h1, h2, h3, h4, h5, h6⟩ := hframe
  have hl : (s.rx (s.reads + 4) % 256 + s.rx (s.reads + 5) % 256) % 256 = 0 := by
    rw [h3, h4]
    omega
  have hn : (s.rx (s.reads + 4) % 256 + 256 - 2) % 256 = L + 254 := by
    rw [h3]
    omega
  constructor
  · intro hbig
    exact ⟨_, readResponse_no_space fuel debug s buf len timeout hready h0 h1 h2 hl h5 h6
      (L + 254) hn hbig⟩
  · intro hfit
    have hw := readResponse_payload fuel debug s buf len timeout hready h0 h1 h2 hl h5 h6
      (L + 254) hn hfit
    have hsl : slice (fun j => if j < L + 254 then s.rx (s.reads + 8 + j) % 256 else buf j) 0
        (L + 254) = slice s.rx (s.reads + 8) (L + 254) := by
      apply slice_congr
      intro j hj
      simp [hj]
    split at hw
    · exact ⟨_, _, _, hw, Or.inr rfl, hsl, by simp only; omega⟩
    · exact ⟨_, _, _, hw, Or.inl rfl, hsl, by simp only; omega⟩

/-! ## Select-line discipline of readResponse -/

theorem selectAsserted_append (held : Bool) (a b : List Event) :
    selectAsserted held (a ++ b) = selectAsserted (selectAsserted held a) b := by
  simp [selectAsserted, List.foldl_append]

theorem selectAsserted_map_read (held : Bool) (l : List Nat) :
    selectAsserted held (l.map Event.read) = held := by
  induction l with
  | nil => rfl
  | cons b bs ih =>
    simp only [List.map_cons, selectAsserted, List.foldl_cons] at ih ⊢
    exact ih

theorem selectAsserted_notReadyPolls (held : Bool) (rx : Nat → Nat) (p k : Nat) (hk : 1 ≤ k) :
    selectAsserted held (notReadyPolls rx p k) = false := by
  obtain ⟨j, rfl⟩ : ∃ j, k = j + 1 := ⟨k - 1, by omega⟩
  rw [notReadyPolls_succ_last, selectAsserted_append]
  rfl

/-- C14. Select-line discipline of `readResponse`. Whenever `readResponse` returns, one of
two things happened. Readiness was confirmed on poll `k + 1`: the result is not Timeout and
the events after that last status poll are exactly one select assertion, the settle
`delay(1)`, then only byte transfers (the request byte `03` and `m >= 1` reads), and one
select release as the final event, whichever way the frame block ended. Or the result is
Timeout: the events are only the `k >= 1` status polls (each select, `02`, read, release,
`delay(1)`). In both cases the select line is released on return. -/
theorem select_discipline (fuel : Nat) (debug : Bool) (s : PN532SPI) (buf : Nat → Nat)
    (len timeout : Nat) (r : Int) (buf1 : Nat → Nat) (s1 : PN532SPI)
    (hres : s.readResponse fuel debug buf len timeout = some (r, buf1, s1)) :
    ((r ≠ PN532_TIMEOUT ∧ ∃ k m, 1 ≤ m ∧
        s1.trace = s.trace ++ notReadyPolls s.rx s.reads k ++
          [Event.select, Event.write 2, Event.read (s.rx (s.reads + k) % 256), Event.release] ++
          ([Event.select, Event.delay 1, Event.write 3] ++
            (slice s.rx (s.reads + k + 1) m).map Event.read ++ [Event.release])) ∨
      (r = PN532_TIMEOUT ∧ ∃ k, 1 ≤ k ∧
        s1.trace = s.trace ++ notReadyPolls s.rx s.reads k)) ∧
    ∀ held, selectAsserted held (s1.trace.drop s.trace.length) = false := by
  unfold PN532SPI.readResponse at hres
  cases hw : readyWaitLoop fuel timeout 0 s with
  | none => simp [hw] at hres
  | some p =>
    obtain ⟨b, s2⟩ := p
    obtain ⟨k, -, hcase⟩ := readyWaitLoop_some _ _ _ _ _ _ hw
    rw [hw] at hres
    rcases hcase with ⟨hb, -, hs⟩ | ⟨hb, hk, hs⟩
    · subst hb
      simp only [Option.some.injEq, Prod.mk.injEq] at hres
      obtain ⟨m, hm, hst, hr⟩ := readResponseBody_shape debug buf len (s2.selectLow.delay 1)
      have htr : s1.trace = s.trace ++ notReadyPolls s.rx s.reads k ++
          [Event.select, Event.write 2, Event.read (s.rx (s.reads + k) % 256), Event.release] ++
          ([Event.select, Event.delay 1, Event.write 3] ++
            (slice s.rx (s.reads + k + 1) m).map Event.read ++ [Event.release]) := by
        rw [← hres.2.2, hst, hs]
        simp [PN532SPI.selectHigh, PN532SPI.selectLow, PN532SPI.delay]
      refine ⟨Or.inl ⟨?_, k, m, hm, htr⟩, ?_⟩
      · rw [← hres.1]
        rcases hr with h | h | h
        · rw [h]; decide
        · rw [h]; decide
        · intro h2
          rw [h2] at h
          exact absurd h (by decide)
      · intro held
        rw [htr]
        simp only [List.append_assoc, List.drop_left]
        rw [← List.append_assoc, ← List.append_assoc, ← List.append_assoc, selectAsserted_append]
        rfl
    · subst hb
      simp only [Option.some.injEq, Prod.mk.injEq] at hres
      have htr : s1.trace = s.trace ++ notReadyPolls s.rx s.reads k := by
        rw [← hres.2.2, hs]
      refine ⟨Or.inr ⟨hres.1.symm, k, hk, htr⟩, ?_⟩
      intro held
      rw [htr, List.drop_left]
      exact selectAsserted_notReadyPolls held _ _ _ hk

/-- Witness of `select_discipline`: a ready device whose first frame byte is `FF`; the frame
block ends at once with InvalidFrame and select is released. -/
theorem select_discipline_witness :
    ∃ buf1 s1,
      (deviceWith 0x4A [1, 0xFF, 0, 0xFF, 5, 251, 0xD5, 0x4B, 1, 2, 3, 218, 0]).readResponse
        1 false (fun _ => 0) 8 0 = some (PN532_INVALID_FRAME, buf1, s1) ∧
      ∀ held, selectAsserted held
        (s1.trace.drop
          (deviceWith 0x4A [1, 0xFF, 0, 0xFF, 5, 251, 0xD5, 0x4B, 1, 2, 3, 218, 0]).trace.length)
        = false :=
  ⟨_, _, readResponse_bad_preamble 0 false
      (deviceWith 0x4A [1, 0xFF, 0, 0xFF, 5, 251, 0xD5, 0x4B, 1, 2, 3, 218, 0]) (fun _ => 0) 8 0
      (by decide) (by decide),
    (select_discipline 1 false
      (deviceWith 0x4A [1, 0xFF, 0, 0xFF, 5, 251, 0xD5, 0x4B, 1, 2, 3, 218, 0]) (fun _ => 0) 8 0
      _ _ _
      (readResponse_bad_preamble 0 false
        (deviceWith 0x4A [1, 0xFF, 0, 0xFF, 5, 251, 0xD5, 0x4B, 1, 2, 3, 218, 0]) (fun _ => 0) 8 0
        (by decide) (by decide))).2⟩

/-! ## Diagnostics on and off -/

/-- C16 fails on the NoSpace path: pending opcode `4A`, buffer capacity 4, and a ready device
that sends a well-formed response with ten payload bytes. Both configurations return NoSpace
and leave the buffer alone, but with diagnostics enabled nineteen frame bytes are read and
with diagnostics compiled out only nine: the sequences of bus reads differ. -/
theorem diagnostics_change_bus_reads :
    ∃ s1 s2,
      (deviceWith 0x4A [1, 0, 0, 0xFF, 12, 244, 0xD5, 0x4B, 1, 2, 3, 4, 5, 6, 7, 8, 9, 10,
          169, 0]).readResponse 1 true (fun _ => 0) 4 0
        = some (PN532_NO_SPACE, (fun _ => 0), s1) ∧
      (deviceWith 0x4A [1, 0, 0, 0xFF, 12, 244, 0xD5, 0x4B, 1, 2, 3, 4, 5, 6, 7, 8, 9, 10,
          169, 0]).readResponse 1 false (fun _ => 0) 4 0
        = some (PN532_NO_SPACE, (fun _ => 0), s2) ∧
      s1.reads = 1 + 19 ∧ s2.reads = 1 + 9 ∧ s1.trace ≠ s2.trace := by
  have h1 := readResponse_no_space 0 true
    (deviceWith 0x4A [1, 0, 0, 0xFF, 12, 244, 0xD5, 0x4B, 1, 2, 3, 4, 5, 6, 7, 8, 9, 10, 169, 0])
    (fun _ => 0) 4 0 (by decide) (by decide) (by decide) (by decide) (by decide) (by decide)
    (by decide) 10 (by decide) (by decide)
  have h2 := readResponse_no_space 0 false
    (deviceWith 0x4A [1, 0, 0, 0xFF, 12, 244, 0xD5, 0x4B, 1, 2, 3, 4, 5, 6, 7, 8, 9, 10, 169, 0])
    (fun _ => 0) 4 0 (by decide) (by decide) (by decide) (by decide) (by decide) (by decide)
    (by decide) 10 (by decide) (by decide)
  refine ⟨_, _, h1, h2, rfl, rfl, ?_⟩
  intro h
  have hl := congrArg List.length h
  simp [slice_length] at hl

/-! ## Buffer bounds -/

/-- Whatever the device sends, the frame block changes the buffer only below some `n` that is
at most the capacity and at most 255, and a result that is not a failure code is that `n`. -/
theorem readResponseBody_buffer (debug : Bool) (buf : Nat → Nat) (len : Nat) (s : PN532SPI) :
    ∃ n, n ≤ len ∧ n ≤ 255 ∧
      (∀ i, n ≤ i → (readResponseBody debug buf len s).2.1 i = buf i) ∧
      ((readResponseBody debug buf len s).1 = PN532_INVALID_FRAME ∨
        (readResponseBody debug buf len s).1 = PN532_NO_SPACE ∨
        (readResponseBody debug buf len s).1 = (n : Int)) := by
  by_cases h0 : s.rx s.reads % 256 = 0
  swap
  · exact ⟨0, Nat.zero_le _, by omega, by rw [body_bad_preamble debug buf len s h0]; simp,
      Or.inl (by rw [body_bad_preamble debug buf len s h0])⟩
  by_cases h1 : s.rx (s.reads + 1) % 256 = 0
  swap
  · exact ⟨0, Nat.zero_le _, by omega, by rw [body_bad_start1 debug buf len s h0 h1]; simp,
      Or.inl (by rw [body_bad_start1 debug buf len s h0 h1])⟩
  by_cases h2 : s.rx (s.reads + 2) % 256 = 255
  swap
  · exact ⟨0, Nat.zero_le _, by omega, by rw [body_bad_start2 debug buf len s h0 h1 h2]; simp,
      Or.inl (by rw [body_bad_start2 debug buf len s h0 h1 h2])⟩
  by_cases hl : (s.rx (s.reads + 3) % 256 + s.rx (s.reads + 4) % 256) % 256 = 0
  swap
  · exact ⟨0, Nat.zero_le _, by omega,
      by rw [body_bad_length_checksum debug buf len s h0 h1 h2 hl]; simp,
      Or.inl (by rw [body_bad_length_checksum debug buf len s h0 h1 h2 hl])⟩
  by_cases ht : s.rx (s.reads + 5) % 256 = 0xD5
  swap
  · exact ⟨0, Nat.zero_le _, by omega,
      by rw [body_bad_direction debug buf len s h0 h1 h2 hl ht]; simp,
      Or.inl (by rw [body_bad_direction debug buf len s h0 h1 h2 hl ht])⟩
  by_cases he : s.rx (s.reads + 6) % 256 = (s.command + 1) % 256
  swap
  · exact ⟨0, Nat.zero_le _, by omega,
      by rw [body_bad_echo debug buf len s h0 h1 h2 hl ht he]; simp,
      Or.inl (by rw [body_bad_echo debug buf len s h0 h1 h2 hl ht he])⟩
  by_cases hbig : len < (s.rx (s.reads + 3) % 256 + 256 - 2) % 256
  · exact ⟨0, Nat.zero_le _, by omega,
      by rw [body_no_space debug buf len s h0 h1 h2 hl ht he _ rfl hbig]; simp,
      Or.inr (Or.inl (by rw [body_no_space debug buf len s h0 h1 h2 hl ht he _ rfl hbig]))⟩
  · have hp := body_payload debug buf len s h0 h1 h2 hl ht he _ rfl (Nat.le_of_not_lt hbig)
    refine ⟨(s.rx (s.reads + 3) % 256 + 256 - 2) % 256, Nat.le_of_not_lt hbig, by omega, ?_, ?_⟩
    · intro i hi
      have hni : ¬ i < (s.rx (s.reads + 3) % 256 + 256 - 2) % 256 := by omega
      rw [hp]
      split <;> simp only [hni, ↓reduceIte]
    · rw [hp]
      split
      · exact Or.inl rfl
      · exact Or.inr (Or.inr rfl)

/-- C18. Buffer bounds of `readResponse`. Whenever `readResponse` returns (for every device,
pending opcode, time-out and capacity `len`, and every initial buffer content): every buffer
cell at an index `>= len` is as before; a non-negative result `r` satisfies `r <= len` and
`r <= 255` and every cell at an index `>= r` is as before; a negative result is Timeout,
InvalidFrame or NoSpace, and these three are negative. Since this holds for every initial
content, no cell outside the stated range is written. -/
theorem buffer_bounds (fuel : Nat) (debug : Bool) (s : PN532SPI) (buf : Nat → Nat)
    (len timeout : Nat) (r : Int) (buf1 : Nat → Nat) (s1 : PN532SPI)
    (hres : s.readResponse fuel debug buf len timeout = some (r, buf1, s1)) :
    (∀ i, len ≤ i → buf1 i = buf i) ∧
      (0 ≤ r → r ≤ (len : Int) ∧ r ≤ 255 ∧ ∀ i : Nat, r ≤ (i : Int) → buf1 i = buf i) ∧
      (r < 0 → r = PN532_TIMEOUT ∨ r = PN532_INVALID_FRAME ∨ r = PN532_NO_SPACE) ∧
      PN532_TIMEOUT < 0 ∧ PN532_INVALID_FRAME < 0 ∧ PN532_NO_SPACE < 0 := by
  unfold PN532SPI.readResponse at hres
  cases hw : readyWaitLoop fuel timeout 0 s with
  | none => simp [hw] at hres
  | some p =>
    obtain ⟨b, s2⟩ := p
    rw [hw] at hres
    cases b with
    | false =>
      simp only [Option.some.injEq, Prod.mk.injEq] at hres
      obtain ⟨hr, hb, -⟩ := hres
      subst hr
      subst hb
      refine ⟨fun _ _ => rfl, fun h => absurd h (by decide), fun _ => Or.inl rfl,
        by decide, by decide, by decide⟩
    | true =>
      simp only [Option.some.injEq, Prod.mk.injEq] at hres
      obtain ⟨hr, hb, -⟩ := hres
      obtain ⟨n, hn1, hn2, hbuf, hcase⟩ :=
        readResponseBody_buffer debug buf len (s2.selectLow.delay 1)
      rw [hr] at hcase
      rw [hb] at hbuf
      refine ⟨fun i hi => hbuf i (by omega), ?_, ?_, by decide, by decide, by decide⟩
      · intro hnn
        rcases hcase with h | h | h
        · rw [h] at hnn
          exact absurd hnn (by decide)
        · rw [h] at hnn
          exact absurd hnn (by decide)
        · rw [h]
          refine ⟨by omega, by omega, ?_⟩
          intro i hi
          exact hbuf i (by omega)
      · intro hneg
        rcases hcase with h | h | h
        · exact Or.inr (Or.inl h)
        · exact Or.inr (Or.inr h)
        · rw [h] at hneg
          omega

/-- Witness of `buffer_bounds`: a well-formed response with ten payload bytes and a buffer
of capacity 4; the result is NoSpace. -/
theorem buffer_bounds_witness :
    ∃ r buf1 s1,
      (deviceWith 0x4A [1, 0, 0, 0xFF, 12, 244, 0xD5, 0x4B, 1, 2, 3, 4, 5, 6, 7, 8, 9, 10,
          169, 0]).readResponse 1 false (fun _ => 0xEE) 4 0 = some (r, buf1, s1) ∧
      (∀ i, 4 ≤ i → buf1 i = 0xEE) ∧
      (0 ≤ r → r ≤ ((4 : Nat) : Int) ∧ r ≤ 255 ∧ ∀ i : Nat, r ≤ (i : Int) → buf1 i = 0xEE) ∧
      (r < 0 → r = PN532_TIMEOUT ∨ r = PN532_INVALID_FRAME ∨ r = PN532_NO_SPACE) ∧
      PN532_TIMEOUT < 0 ∧ PN532_INVALID_FRAME < 0 ∧ PN532_NO_SPACE < 0 :=
  ⟨_, _, _, readResponse_no_space 0 false
      (deviceWith 0x4A [1, 0, 0, 0xFF, 12, 244, 0xD5, 0x4B, 1, 2, 3, 4, 5, 6, 7, 8, 9, 10, 169,
        0]) (fun _ => 0xEE) 4 0 (by decide) (by decide) (by decide) (by decide) (by decide)
      (by decide) (by decide) 10 (by decide) (by decide),
    buffer_bounds 1 false _ (fun _ => 0xEE) 4 0 _ _ _
      (readResponse_no_space 0 false
        (deviceWith 0x4A [1, 0, 0, 0xFF, 12, 244, 0xD5, 0x4B, 1, 2, 3, 4, 5, 6, 7, 8, 9, 10, 169,
          0]) (fun _ => 0xEE) 4 0 (by decide) (by decide) (by decide) (by decide) (by decide)
        (by decide) (by decide) 10 (by decide) (by decide))⟩

/-! ## The exact time-out threshold of readResponse -/

theorem notReadyPolls_counts (rx : Nat → Nat) (p k : Nat) :
    (notReadyPolls rx p k).count (Event.write 2) = k ∧
      (notReadyPolls rx p k).count (Event.delay 1) = k := by
  induction k generalizing p with
  | zero => simp [notReadyPolls]
  | succ k ih =>
    obtain ⟨h1, h2⟩ := ih (p + 1)
    simp only [notReadyPolls, List.cons_append, List.nil_append]
    constructor
    · simp [List.count_cons, h1]
    · simp [List.count_cons, h2]

/-- C19. The exact time-out threshold. For a budget `t` with `0 < t < 65535` (and fuel for
`t + 1` polls) `readResponse` returns, and it returns Timeout exactly when the first `t + 1`
status polls all report not-ready. On Timeout the buffer is untouched and the events are
exactly `t + 1` status polls, each followed by one `delay(1)`. A device that is first ready
on poll `k + 1 <= t + 1` is served: the result is not Timeout and the frame block runs right
after that poll. A device that is not ready on the first `k >= t + 1` polls is timed out. -/
theorem readResponse_threshold (fuel t : Nat) (debug : Bool) (s : PN532SPI) (buf : Nat → Nat)
    (len : Nat) (ht : 0 < t) (ht2 : t < 65535) (hf : t + 1 ≤ fuel) :
    ∃ r buf1 s1, s.readResponse fuel debug buf len t = some (r, buf1, s1) ∧
      (r = PN532_TIMEOUT ↔ ∀ i, i < t + 1 → s.rx (s.reads + i) % 2 = 0) ∧
      (r = PN532_TIMEOUT →
        buf1 = buf ∧ s1.reads = s.reads + (t + 1) ∧
        s1.trace = s.trace ++ notReadyPolls s.rx s.reads (t + 1) ∧
        (s1.trace.drop s.trace.length).count (Event.write 2) = t + 1 ∧
        (s1.trace.drop s.trace.length).count (Event.delay 1) = t + 1) ∧
      (∀ k, k < t + 1 → (∀ i, i < k → s.rx (s.reads + i) % 2 = 0) →
        s.rx (s.reads + k) % 2 = 1 →
        r ≠ PN532_TIMEOUT ∧ ∃ m, 1 ≤ m ∧
          s1.trace = s.trace ++ notReadyPolls s.rx s.reads k ++
            [Event.select, Event.write 2, Event.read (s.rx (s.reads + k) % 256),
              Event.release] ++
            [Event.select, Event.delay 1, Event.write 3] ++
            (slice s.rx (s.reads + (k + 1)) m).map Event.read ++ [Event.release]) ∧
      (∀ k, t + 1 ≤ k → (∀ i, i < k → s.rx (s.reads + i) % 2 = 0) → r = PN532_TIMEOUT) := by
  by_cases hall : ∀ i, i < t + 1 → s.rx (s.reads + i) % 2 = 0
  · have hw := readyWaitLoop_timeout (t + 1) fuel t 0 s ht ht2 (by omega) (by omega) hf hall
    have hrr : s.readResponse fuel debug buf len t = some (PN532_TIMEOUT, buf,
        { s with reads := s.reads + (t + 1),
                 trace := s.trace ++ notReadyPolls s.rx s.reads (t + 1) }) := by
      unfold PN532SPI.readResponse
      rw [hw]
    refine ⟨_, _, _, hrr, ?_, ?_, ?_, ?_⟩
    · exact ⟨fun _ => hall, fun _ => rfl⟩
    · intro _
      refine ⟨rfl, rfl, rfl, ?_, ?_⟩
      · simp only [List.drop_left]
        exact (notReadyPolls_counts _ _ _).1
      · simp only [List.drop_left]
        exact (notReadyPolls_counts _ _ _).2
    · intro k hk _ hr
      have := hall k hk
      omega
    · intro _ _ _
      rfl
  · have hex : ∃ k, k < t + 1 ∧ s.rx (s.reads + k) % 2 = 1 := by
      by_contra hne
      apply hall
      intro i hi
      by_contra h0
      exact hne ⟨i, hi, by omega⟩
    have hk := Nat.find_spec hex
    have hmin : ∀ i, i < Nat.find hex → s.rx (s.reads + i) % 2 = 0 := by
      intro i hi
      have h1 := Nat.find_min hex hi
      have h2 : i < t + 1 := by omega
      have h3 : ¬ s.rx (s.reads + i) % 2 = 1 := fun h => h1 ⟨h2, h⟩
      omega
    have hw := readyWaitLoop_ready (Nat.find hex) fuel t 0 s (by omega) (by omega) (by omega)
      hmin hk.2
    obtain ⟨m, hm, hst, hres⟩ := readResponseBody_shape debug buf len
      { command := s.command, rx := s.rx, reads := s.reads + Nat.find hex + 1,
        trace := s.trace ++ notReadyPolls s.rx s.reads (Nat.find hex) ++
          [Event.select, Event.write 2, Event.read (s.rx (s.reads + Nat.find hex) % 256),
            Event.release] ++ [Event.select] ++ [Event.delay 1] }
    have hne : (readResponseBody debug buf len
        { command := s.command, rx := s.rx, reads := s.reads + Nat.find hex + 1,
          trace := s.trace ++ notReadyPolls s.rx s.reads (Nat.find hex) ++
            [Event.select, Event.write 2, Event.read (s.rx (s.reads + Nat.find hex) % 256),
              Event.release] ++ [Event.select] ++ [Event.delay 1] }).1 ≠ PN532_TIMEOUT := by
      rcases hres with h | h | h
      · rw [h]; decide
      · rw [h]; decide
      · intro h2
        rw [h2] at h
        exact absurd h (by decide)
    have hrr : s.readResponse fuel debug buf len t = some
        ((readResponseBody debug buf len
          { command := s.command, rx := s.rx, reads := s.reads + Nat.find hex + 1,
            trace := s.trace ++ notReadyPolls s.rx s.reads (Nat.find hex) ++
              [Event.select, Event.write 2, Event.read (s.rx (s.reads + Nat.find hex) % 256),
                Event.release] ++ [Event.select] ++ [Event.delay 1] }).1,
         (readResponseBody debug buf len
          { command := s.command, rx := s.rx, reads := s.reads + Nat.find hex + 1,
            trace := s.trace ++ notReadyPolls s.rx s.reads (Nat.find hex) ++
              [Event.select, Event.write 2, Event.read (s.rx (s.reads + Nat.find hex) % 256),
                Event.release] ++ [Event.select] ++ [Event.delay 1] }).2.1,
         (readResponseBody debug buf len
          { command := s.command, rx := s.rx, reads := s.reads + Nat.find hex + 1,
            trace := s.trace ++ notReadyPolls s.rx s.reads (Nat.find hex) ++
              [Event.select, Event.write 2, Event.read (s.rx (s.reads + Nat.find hex) % 256),
                Event.release] ++ [Event.select] ++ [Event.delay 1] }).2.2.selectHigh) := by
      unfold PN532SPI.readResponse
      rw [hw]
      simp only [PN532SPI.selectLow, PN532SPI.delay]
    refine ⟨_, _, _, hrr, ?_, ?_, ?_, ?_⟩
    · exact ⟨fun h => absurd h hne, fun h => absurd h hall⟩
    · intro h
      exact absurd h hne
    · intro k hk1 hnot hrdy
      have hkeq : k = Nat.find hex := by
        rcases Nat.lt_trichotomy k (Nat.find hex) with h | h | h
        · have := hmin k h
          omega
        · exact h
        · have := hnot (Nat.find hex) h
          omega
      refine ⟨hne, m, hm, ?_⟩
      rw [hst, hkeq]
      simp [PN532SPI.selectHigh, Nat.add_assoc]
    · intro k hk1 hnot
      have := hnot (Nat.find hex) (by omega)
      omega

/-- Witness of `readResponse_threshold`: budget 3 on a device that is never ready; the result
is Timeout after four polls. -/
theorem readResponse_threshold_witness :
    ∃ r buf1 s1, (deviceWith 0 []).readResponse 4 false (fun _ => 0) 8 3 = some (r, buf1, s1) ∧
      (r = PN532_TIMEOUT ↔ ∀ i, i < 3 + 1 → (ofList []) (0 + i) % 2 = 0) ∧
      (r = PN532_TIMEOUT →
        buf1 = (fun _ => 0) ∧ s1.reads = 0 + (3 + 1) ∧
        s1.trace = [] ++ notReadyPolls (ofList []) 0 (3 + 1) ∧
        (s1.trace.drop 0).count (Event.write 2) = 3 + 1 ∧
        (s1.trace.drop 0).count (Event.delay 1) = 3 + 1) ∧
      (∀ k, k < 3 + 1 → (∀ i, i < k → (ofList []) (0 + i) % 2 = 0) →
        (ofList []) (0 + k) % 2 = 1 →
        r ≠ PN532_TIMEOUT ∧ ∃ m, 1 ≤ m ∧
          s1.trace = [] ++ notReadyPolls (ofList []) 0 k ++
            [Event.select, Event.write 2, Event.read ((ofList []) (0 + k) % 256),
              Event.release] ++
            [Event.select, Event.delay 1, Event.write 3] ++
            (slice (ofList []) (0 + (k + 1)) m).map Event.read ++ [Event.release]) ∧
      (∀ k, 3 + 1 ≤ k → (∀ i, i < k → (ofList []) (0 + i) % 2 = 0) → r = PN532_TIMEOUT) :=
  readResponse_threshold 4 3 false (deviceWith 0 []) (fun _ => 0) 8 (by decide) (by decide)
    (by decide)

/-- Outside the NoSpace path the diagnostics make no difference to the frame block; on every
path the result and the buffer are the same in both configurations. -/
theorem readResponseBody_debug (buf : Nat → Nat) (len : Nat) (s : PN532SPI) :
    (readResponseBody true buf len s).1 = (readResponseBody false buf len s).1 ∧
      (readResponseBody true buf len s).2.1 = (readResponseBody false buf len s).2.1 ∧
      ((readResponseBody true buf len s).1 ≠ PN532_NO_SPACE →
        readResponseBody true buf len s = readResponseBody false buf len s) := by
  by_cases h0 : s.rx s.reads % 256 = 0
  swap
  · simp only [body_bad_preamble _ buf len s h0, true_and, implies_true]
  by_cases h1 : s.rx (s.reads + 1) % 256 = 0
  swap
  · simp only [body_bad_start1 _ buf len s h0 h1, true_and, implies_true]
  by_cases h2 : s.rx (s.reads + 2) % 256 = 255
  swap
  · simp only [body_bad_start2 _ buf len s h0 h1 h2, true_and, implies_true]
  by_cases hl : (s.rx (s.reads + 3) % 256 + s.rx (s.reads + 4) % 256) % 256 = 0
  swap
  · simp only [body_bad_length_checksum _ buf len s h0 h1 h2 hl, true_and, implies_true]
  by_cases ht : s.rx (s.reads + 5) % 256 = 0xD5
  swap
  · simp only [body_bad_direction _ buf len s h0 h1 h2 hl ht, true_and, implies_true]
  by_cases he : s.rx (s.reads + 6) % 256 = (s.command + 1) % 256
  swap
  · simp only [body_bad_echo _ buf len s h0 h1 h2 hl ht he, true_and, implies_true]
  by_cases hbig : len < (s.rx (s.reads + 3) % 256 + 256 - 2) % 256
  · simp only [body_no_space _ buf len s h0 h1 h2 hl ht he _ rfl hbig, true_and, ne_eq,
      not_true_eq_false, false_implies]
  · simp only [body_payload _ buf len s h0 h1 h2 hl ht he _ rfl (Nat.le_of_not_lt hbig),
      true_and, implies_true]

end PN532
